import Mathlib

/-!
# Payroll time-report ingestion

A shallow embedding of the upload handler `insertTimeSheet` of `app.go`, of the
gorm models under `models/`, and of the library calls they make.

* Calendar values (`time.Time`) are civil dates in UTC with a second-of-day;
  `time.Date` normalises out-of-range months and days as the Go library does.
* Hours, rates and amounts are `float32` in the source.  Finite values are
  embedded as exact rationals, so rounding and overflow are outside the model;
  the non-finite values that `strconv.ParseFloat` accepts are kept apart.
* The relational store is a record of four tables.  Its primitives follow the
  calls made by the source as gorm and MySQL carry them out: lookup by primary
  key, first-or-create (which ignores the zero-valued fields of its
  condition), insert-or-increment, foreign keys, and a transaction that keeps
  the old state on failure.
* What the sources leave to the standard library and to the database engine
  (parsing, collation of keys, generated ids, error texts) is a parameter of
  the handler (`Lib`); `goLib` is an instance for the concrete runs.
-/

namespace Payroll

/-! ## Calendar time -/

/-- A `time.Time` in UTC: civil date and seconds elapsed since midnight. -/
structure Time where
  year : Int
  month : Nat
  day : Nat
  sec : Nat
deriving DecidableEq, Repr

/-- Gregorian leap-year rule. -/
def isLeap (year : Int) : Bool :=
  year % 4 = 0 && (year % 100 != 0 || year % 400 = 0)

/-- Number of days of a month. -/
def daysIn (year : Int) (month : Nat) : Nat :=
  if month = 2 then (if isLeap year then 29 else 28)
  else if month = 4 ∨ month = 6 ∨ month = 9 ∨ month = 11 then 30
  else 31

/-- A well-formed instant: month 1..12, day within the month, second within the day. -/
def Time.Valid (t : Time) : Prop :=
  1 ≤ t.month ∧ t.month ≤ 12 ∧ 1 ≤ t.day ∧ t.day ≤ daysIn t.year t.month ∧ t.sec < 86400

instance (t : Time) : Decidable t.Valid := by
  unfold Time.Valid; infer_instance

/-- A calendar date: a well-formed instant at midnight, which is what
`time.Parse` returns for the layout `csvDateFormat`. -/
def Time.IsDate (t : Time) : Prop := t.Valid ∧ t.sec = 0

instance (t : Time) : Decidable t.IsDate := by
  unfold Time.IsDate; infer_instance

/-- Chronological order `a` not after `b`. -/
def Time.le (a b : Time) : Prop :=
  a.year < b.year ∨ (a.year = b.year ∧
    (a.month < b.month ∨ (a.month = b.month ∧
      (a.day < b.day ∨ (a.day = b.day ∧ a.sec ≤ b.sec)))))

instance (a b : Time) : Decidable (Time.le a b) := by
  unfold Time.le; infer_instance

/-- The same time of day on the following civil day. -/
def nextDay (t : Time) : Time :=
  if t.day < daysIn t.year t.month then { t with day := t.day + 1 }
  else if t.month < 12 then { t with month := t.month + 1, day := 1 }
  else { t with year := t.year + 1, month := 1, day := 1 }

/-- The same time of day on the preceding civil day. -/
def prevDay (t : Time) : Time :=
  if 1 < t.day then { t with day := t.day - 1 }
  else if 1 < t.month then { t with month := t.month - 1, day := daysIn t.year (t.month - 1) }
  else { t with year := t.year - 1, month := 12, day := 31 }

/-- Move `n` civil days forward. -/
def addDays (t : Time) : Nat → Time
  | 0 => t
  | n + 1 => addDays (nextDay t) n

/-- The call `time.Date(year, month, day, ...)` in UTC, `sec` seconds after
midnight, for `month ≥ 1` and `day ≥ 1`: a month past December rolls into the
following years, a day past the end of the month rolls into the following
months. -/
def Date (year : Int) (month day sec : Nat) : Time :=
  addDays ⟨year + ((month - 1) / 12 : Nat), (month - 1) % 12 + 1, 1, sec⟩ (day - 1)

/-- The method `t.AddDate(years, months, days)` for non-negative months and days. -/
def Time.AddDate (t : Time) (years : Int) (months days : Nat) : Time :=
  Date (t.year + years) (t.month + months) (t.day + days) t.sec

/-- The call `t.Add(-time.Second)`. -/
def Time.subSecond (t : Time) : Time :=
  if 0 < t.sec then { t with sec := t.sec - 1 }
  else { prevDay t with sec := 86399 }

/-! ## Pay periods (`app.go`, `models/pay_period.go`) -/

/-- Model `PayPeriod`. -/
structure PayPeriod where
  StartDate : Time
  EndDate : Time
deriving DecidableEq, Repr

/-- Returns the starting date of the month. -/
def getStartDate (date : Time) : Time :=
  Date date.year date.month 1 0

/-- Returns the ending date of the month. -/
def getEndDate (date : Time) : Time :=
  ((getStartDate date).AddDate 0 1 0).subSecond

/-- The pay period `insertTimeSheet` derives from a time-sheet date
(the block "determine pay_periods dates" of the row loop). -/
def payPeriodOf (date : Time) : PayPeriod :=
  let startDate := getStartDate date
  let endDate := getEndDate date
  if date.day < 16 then
    { StartDate := startDate, EndDate := startDate.AddDate 0 0 14 }
  else
    { StartDate := startDate.AddDate 0 0 15, EndDate := endDate }

/-! ## Values of type `float32` -/

/-- A `float32`: a finite value, kept exact, or one of `+Inf`, `-Inf`, `NaN`. -/
inductive Float32 where
  | finite (value : ℚ)
  | posInf
  | negInf
  | nan
deriving DecidableEq, Repr

/-- Product of an infinity and a finite value: the infinity of the product of
the signs, `NaN` for the value zero. -/
def Float32.scaleInf (positive : Bool) (a : ℚ) : Float32 :=
  if a = 0 then .nan
  else if (0 < a) = positive then .posInf
  else .negInf

/-- Product of two `float32` values. -/
def Float32.mul : Float32 → Float32 → Float32
  | .finite a, .finite b => .finite (a * b)
  | .nan, _ => .nan
  | _, .nan => .nan
  | .finite a, .posInf => Float32.scaleInf true a
  | .finite a, .negInf => Float32.scaleInf false a
  | .posInf, .finite b => Float32.scaleInf true b
  | .negInf, .finite b => Float32.scaleInf false b
  | .posInf, .posInf => .posInf
  | .negInf, .negInf => .posInf
  | .posInf, .negInf => .negInf
  | .negInf, .posInf => .negInf

/-! ## Strings (`path/filepath`, `strings`, `fmt`) -/

/-- Scan of `filepath.Ext` over the reversed name: the text from the last dot of
the last path element, empty when that element has no dot. -/
def extAux : List Char → List Char → List Char
  | [], _ => []
  | c :: rest, acc =>
    if c = '.' then c :: acc
    else if c = '/' then []
    else extAux rest (c :: acc)

/-- The call `filepath.Ext(path)`. -/
def Ext (path : String) : String :=
  String.mk (extAux path.toList.reverse [])

/-- Splits a basename.  Returns the filename and extension separated. -/
def splitExt (basename : String) : String × String :=
  let ext := Ext basename
  let fn := String.mk (basename.toList.take (basename.length - ext.length))
  (fn, ext)

/-- Pieces of a character list between occurrences of a separator. -/
def splitChars (sep : Char) : List Char → List (List Char)
  | [] => [[]]
  | c :: cs =>
    if c = sep then [] :: splitChars sep cs
    else
      match splitChars sep cs with
      | [] => [[c]]
      | p :: ps => (c :: p) :: ps

/-- The call `strings.Split(s, sep)` for a one-character separator. -/
def Split (s : String) (sep : Char) : List String :=
  (splitChars sep s.toList).map String.mk

/-- Decimal digits of a natural number, most significant first (`fuel` bounds the length). -/
def digitsAux : Nat → Nat → List Char → List Char
  | 0, _, acc => acc
  | fuel + 1, n, acc =>
    let acc1 := Char.ofNat (48 + n % 10) :: acc
    if n / 10 = 0 then acc1 else digitsAux fuel (n / 10) acc1

/-- Decimal rendering of a natural number, left-padded with zeros to `width`. -/
def natPad (width n : Nat) : String :=
  let ds := digitsAux (n + 1) n []
  String.mk (List.replicate (width - ds.length) '0' ++ ds)

/-- The verb `%d` applied to an integer. -/
def fmtInt (i : Int) : String :=
  if i < 0 then "-" ++ natPad 1 i.natAbs else natPad 1 i.natAbs

/-- The call `t.Format(dbDateFormat)` with `dbDateFormat = "2006-01-02"`. -/
def Time.Format (t : Time) : String :=
  (if t.year < 0 then "-" else "") ++ natPad 4 t.year.natAbs ++ "-" ++
    natPad 2 t.month ++ "-" ++ natPad 2 t.day

/-- Nearest integer, ties to the even neighbour. -/
def roundHalfEven (q : ℚ) : Int :=
  let f := ⌊q⌋
  let r := q - f
  if r < 1 / 2 then f
  else if 1 / 2 < r then f + 1
  else if f % 2 = 0 then f else f + 1

/-- The verb `%.2f` applied to a finite value. -/
def fmtFixed2 (amount : ℚ) : String :=
  let cents := (roundHalfEven (|amount| * 100)).toNat
  (if amount < 0 then "-" else "") ++ natPad 1 (cents / 100) ++ "." ++
    natPad 2 (cents % 100)

/-- The call `fmt.Sprintf("$%.2f", amount)`. -/
def fmtAmount (amount : Float32) : String :=
  match amount with
  | .finite value => "$" ++ fmtFixed2 value
  | .posInf => "$+Inf"
  | .negInf => "$-Inf"
  | .nan => "$NaN"

/-- Conversion `uint(i)` of a signed integer on a 64-bit platform. -/
def toUint (i : Int) : Nat := (i % 2 ^ 64).toNat

/-! ## Models (`models/*.go`) -/

/-- Model `PayGroup`; `ID` is the primary key.  The rates the program handles
are the seeded 20 and 30 and the zero value, all finite. -/
structure PayGroup where
  ID : String
  Rate : ℚ
deriving DecidableEq, Repr

/-- Model `TimeSheet`; the primary key is `(ID, Date, EmployeeID)`, `PayGroupID`
is the foreign key of the association `PayGroup`. -/
structure TimeSheet where
  ID : Nat
  Date : Time
  EmployeeID : Nat
  Hours : Float32
  PayGroupID : String
  PayGroup : PayGroup
deriving DecidableEq, Repr

/-- A row of table `time_sheets`; the column `hours` holds finite values. -/
structure TimeSheetRow where
  ID : Nat
  Date : Time
  EmployeeID : Nat
  Hours : ℚ
  PayGroupID : String
deriving DecidableEq, Repr

/-- Model `EmployeeReport`; the primary key is `(EmployeeID, PayPeriodID)`,
`PayPeriodID` is the foreign key of the association `PayPeriod`. -/
structure EmployeeReport where
  EmployeeID : Nat
  PayPeriodID : Time
  PayPeriod : PayPeriod
  Amount : Float32
deriving DecidableEq, Repr

/-- A row of table `employee_reports`; the column `amount` holds finite values. -/
structure EmployeeReportRow where
  EmployeeID : Nat
  PayPeriodID : Time
  Amount : ℚ
deriving DecidableEq, Repr

/-- The store: the four tables the application migrates. -/
structure DB where
  time_sheets : List TimeSheetRow
  pay_groups : List PayGroup
  pay_periods : List PayPeriod
  employee_reports : List EmployeeReportRow
deriving DecidableEq, Repr

/-- The zero `time.Time`: 1 January of year 1, midnight UTC. -/
def zeroTime : Time := ⟨1, 1, 1, 0⟩

/-! ## Library and engine behaviour taken as parameters -/

/-- The reasons for which the database engine, in its default strict mode,
refuses a statement of the program. -/
inductive StoreFault where
  /-- A row that refers to a parent row that is not stored. -/
  | foreignKey
  /-- A value outside the range of its column: a non-finite number in a `FLOAT`
  column, the zero time in a `DATETIME` column. -/
  | outOfRange
  /-- A text longer than its `varchar(191)` column. -/
  | tooLong
deriving DecidableEq, Repr

/-- What the sources leave to the standard library and to the database engine.
Each parsing call returns the parsed value or the text of the error
(`err.Error()`). -/
structure Lib where
  /-- The call `csv.NewReader(file).ReadAll()` on the bytes of the upload. -/
  ReadAll : String → Except String (List (List String))
  /-- The call `time.Parse(csvDateFormat, s)` with `csvDateFormat = "2/1/2006"`. -/
  ParseTime : String → Except String Time
  /-- The call `strconv.ParseFloat(s, 32)`, converted with `float32(...)`. -/
  ParseFloat : String → Except String Float32
  /-- The call `strconv.Atoi(s)`. -/
  Atoi : String → Except String Int
  /-- The call `strconv.ParseInt(s, 10, 32)`. -/
  ParseInt : String → Except String Int
  /-- Two different texts that the collation of the pay-group key columns takes
  for equal (MySQL ignores the case of letters by default). -/
  SameKey : String → String → Bool
  /-- The `ID` the engine gives a time sheet inserted without one
  (`AUTO_INCREMENT`), from the rows stored. -/
  NextID : List TimeSheetRow → Nat
  /-- The text of the error for a refused statement. -/
  StoreError : StoreFault → String

/-- Equality of a stored pay-group key and a key value, as the engine decides
it: equal texts, or texts the collation takes for equal. -/
def Lib.keyEq (lib : Lib) (stored value : String) : Bool :=
  decide (stored = value) || lib.SameKey stored value

/-! ## Store operations of the models -/

/-- Insert a new record into pay_groups table: `db.FirstOrCreate(&p)` looks the
row up by the primary key of `p` (no condition at all when that key is the zero
value) and inserts `p` when there is none. -/
def PayGroup.CreatePayGroup (lib : Lib) (p : PayGroup) (db : DB) : DB :=
  if db.pay_groups.any (fun g => p.ID = "" ∨ lib.keyEq g.ID p.ID) then db
  else { db with pay_groups := db.pay_groups ++ [p] }

/-- Strict order of two instants. -/
def Time.lt (a b : Time) : Prop := Time.le a b ∧ a ≠ b

instance (a b : Time) : Decidable (Time.lt a b) := by
  unfold Time.lt; infer_instance

/-- Order of the primary key of `time_sheets`. -/
def TimeSheetRow.before (a b : TimeSheetRow) : Bool :=
  a.ID < b.ID ∨ (a.ID = b.ID ∧
    (Time.lt a.Date b.Date ∨ (a.Date = b.Date ∧ a.EmployeeID < b.EmployeeID)))

/-- The row that comes first in primary-key order (`ORDER BY id LIMIT 1`, rows
of equal `id` as the primary index yields them). -/
def firstByKey : List TimeSheetRow → Option TimeSheetRow
  | [] => none
  | r :: rest =>
    match firstByKey rest with
    | none => some r
    | some b => if b.before r then some b else some r

/-- Insert a new entry into the time_sheets table:
`db.FirstOrCreate(t, TimeSheet{ID, Date, EmployeeID})`.

The lookup compares only the key fields of `t` that are not the zero value of
their type.  When a row is found, it is read into `t` and nothing is written.
Otherwise `t` is created: gorm first saves the association `t.PayGroup` (an
insert that leaves an existing pay group untouched, skipped for the zero
`PayGroup`) and copies its key into `t.PayGroupID`; then the row is inserted,
with an `ID` given by the engine when `t.ID` is zero.  The engine refuses a key
that is too long, non-finite hours, the zero date, and a `PayGroupID` without
its pay group.  Returns the store and the value of `t` after the call, or the
text of the error. -/
def TimeSheet.CreatetTimeSheet (lib : Lib) (t : TimeSheet) (db : DB) :
    Except String (DB × TimeSheet) :=
  match firstByKey (db.time_sheets.filter (fun r =>
      (t.ID = 0 ∨ r.ID = t.ID) ∧ (t.Date = zeroTime ∨ r.Date = t.Date) ∧
      (t.EmployeeID = 0 ∨ r.EmployeeID = t.EmployeeID))) with
  | some r =>
    .ok (db, { t with ID := r.ID, Date := r.Date, EmployeeID := r.EmployeeID,
                      Hours := .finite r.Hours, PayGroupID := r.PayGroupID })
  | none =>
    let saved := t.PayGroup ≠ { ID := "", Rate := 0 }
    if saved ∧ 191 < t.PayGroup.ID.length then .error (lib.StoreError .tooLong)
    else
    let db1 :=
      if saved ∧ ¬ db.pay_groups.any (fun g => lib.keyEq g.ID t.PayGroup.ID) then
        { db with pay_groups := db.pay_groups ++ [t.PayGroup] }
      else db
    let t1 := if saved then { t with PayGroupID := t.PayGroup.ID } else t
    match t1.Hours with
    | .posInf | .negInf | .nan => .error (lib.StoreError .outOfRange)
    | .finite hours =>
    if t1.Date = zeroTime then .error (lib.StoreError .outOfRange)
    else if 191 < t1.PayGroupID.length then .error (lib.StoreError .tooLong)
    else if ¬ db1.pay_groups.any (fun g => lib.keyEq g.ID t1.PayGroupID) then
      .error (lib.StoreError .foreignKey)
    else
    let t2 := if t1.ID = 0 then { t1 with ID := lib.NextID db.time_sheets } else t1
    .ok ({ db1 with time_sheets := db1.time_sheets ++
        [{ ID := t2.ID, Date := t2.Date, EmployeeID := t2.EmployeeID,
           Hours := hours, PayGroupID := t2.PayGroupID }] }, t2)

/-- Insert a new entry into the employee_reports table; updates the existing
entry if one is found: `Create(e)` with `ON CONFLICT ... DO UPDATE Amount = Amount + amount`.

gorm first saves the association `e.PayPeriod` (an insert that leaves an
existing pay period untouched, skipped for the zero `PayPeriod`) and copies
its key into `e.PayPeriodID`; the row is then inserted with `e.Amount`, or the
stored row with the same primary key has `amount` added.  The engine refuses
the zero time, a non-finite amount, and a `PayPeriodID` without its pay
period.  Returns the store after the call, or the text of the error. -/
def EmployeeReport.CreateEmpoyeeReport (lib : Lib) (e : EmployeeReport) (db : DB)
    (amount : Float32) : Except String DB :=
  let saved := e.PayPeriod ≠ { StartDate := zeroTime, EndDate := zeroTime }
  if saved ∧ (e.PayPeriod.StartDate = zeroTime ∨ e.PayPeriod.EndDate = zeroTime) then
    .error (lib.StoreError .outOfRange)
  else
  let db1 :=
    if saved ∧ ¬ db.pay_periods.any (fun p => p.StartDate = e.PayPeriod.StartDate) then
      { db with pay_periods := db.pay_periods ++ [e.PayPeriod] }
    else db
  let key := if saved then e.PayPeriod.StartDate else e.PayPeriodID
  match e.Amount with
  | .posInf | .negInf | .nan => .error (lib.StoreError .outOfRange)
  | .finite initial =>
  if key = zeroTime then .error (lib.StoreError .outOfRange)
  else if ¬ db1.pay_periods.any (fun p => p.StartDate = key) then
    .error (lib.StoreError .foreignKey)
  else if db1.employee_reports.any
      (fun r => r.EmployeeID = e.EmployeeID ∧ r.PayPeriodID = key) then
    match amount with
    | .posInf | .negInf | .nan => .error (lib.StoreError .outOfRange)
    | .finite added =>
      .ok { db1 with employee_reports := db1.employee_reports.map (fun r =>
        if r.EmployeeID = e.EmployeeID ∧ r.PayPeriodID = key then
          { r with Amount := r.Amount + added }
        else r) }
  else
    .ok { db1 with employee_reports := db1.employee_reports ++
      [{ EmployeeID := e.EmployeeID, PayPeriodID := key, Amount := initial }] }

/-- The query `tx.Where("ID = ?", id).First(&payGroup)` on a zero `payGroup`:
the stored pay group whose key equals `id` for the engine, the zero value when
there is none. -/
def findPayGroup (lib : Lib) (db : DB) (id : String) : PayGroup :=
  match db.pay_groups.find? (fun g => lib.keyEq g.ID id) with
  | some g => g
  | none => { ID := "", Rate := 0 }

/-- The query `a.DB.First(&testRecord, id)` succeeds: a time sheet whose `ID` is `id` is stored. -/
def timeSheetExists (db : DB) (id : Int) : Bool :=
  db.time_sheets.any (fun r => (r.ID : Int) = id)

/-- Retrieve all records in employee_reports table, with `PayPeriod` preloaded. -/
def GetEmployeeReports (db : DB) : List EmployeeReport :=
  db.employee_reports.map (fun r =>
    { EmployeeID := r.EmployeeID, PayPeriodID := r.PayPeriodID, Amount := .finite r.Amount,
      PayPeriod :=
        match db.pay_periods.find? (fun p => p.StartDate = r.PayPeriodID) with
        | some p => p
        | none => { StartDate := zeroTime, EndDate := zeroTime } })

/-- The JSON object written for a `PayPeriod`. -/
structure PayPeriodJSON where
  startDate : String
  endDate : String
deriving DecidableEq, Repr

/-- The JSON object written for an `EmployeeReport`. -/
structure EmployeeReportJSON where
  employeeID : Nat
  payPeriod : PayPeriodJSON
  amountPaid : String
deriving DecidableEq, Repr

/-- Custom Marshal for PayPeriod.  Converts time.Time to formatted string. -/
def PayPeriod.MarshalJSON (p : PayPeriod) : PayPeriodJSON :=
  { startDate := p.StartDate.Format, endDate := p.EndDate.Format }

/-- Custom Marshal for EmployeeReport.  Removes PayPeriodID and formats Amount. -/
def EmployeeReport.MarshalJSON (e : EmployeeReport) : EmployeeReportJSON :=
  { employeeID := e.EmployeeID, payPeriod := e.PayPeriod.MarshalJSON,
    amountPaid := fmtAmount e.Amount }

/-! ## The handlers (`app.go`) -/

/-- What a handler call leaves on the wire. -/
inductive Outcome where
  /-- One `sendSuccess(w, message)`: status 200. -/
  | success (message : String)
  /-- One `sendBadRequest(w, error)` followed by `return`: status 400. -/
  | badRequest (error : String)
  /-- A run-time failure (index out of range) ends the handler; `sent` is the
  bad request written before it, if any. -/
  | crash (sent : Option String)
deriving DecidableEq, Repr

/-- Insert records into pay_groups table. -/
def seed (lib : Lib) (db : DB) : DB :=
  let groupA : PayGroup := { ID := "A", Rate := 20 }
  let db1 := groupA.CreatePayGroup lib db
  let groupB : PayGroup := { ID := "B", Rate := 30 }
  groupB.CreatePayGroup lib db1

/-- The freshly migrated store: four empty tables. -/
def emptyDB : DB :=
  { time_sheets := [], pay_groups := [], pay_periods := [], employee_reports := [] }

/-- The part of the row loop of `insertTimeSheet` that follows the parsing of
the fields: writes the time sheet, derives the pay period, looks up the rate
and accumulates the amount, all inside the transaction `tx`.  Returns the new
transaction state, or the text of the store error that the loop forwards. -/
def storeRecord (lib : Lib) (id : Int) (tx : DB) (date : Time) (hours : Float32)
    (employeeID : Int) (group : String) : Except String DB :=
  match TimeSheet.CreatetTimeSheet lib
    { ID := toUint id, Date := date, Hours := hours, EmployeeID := toUint employeeID,
      PayGroupID := "", PayGroup := { ID := group, Rate := 0 } } tx with
  | .error err => .error err
  | .ok created =>
    let tx1 := created.1
    let timesheet := created.2
    let payGroup := findPayGroup lib tx1 timesheet.PayGroupID
    let amount := Float32.mul (.finite payGroup.Rate) timesheet.Hours
    let employeeReport : EmployeeReport :=
      { Amount := amount, EmployeeID := timesheet.EmployeeID, PayPeriodID := zeroTime,
        PayPeriod := payPeriodOf timesheet.Date }
    employeeReport.CreateEmpoyeeReport lib tx1 amount

/-- One iteration of the row loop of `insertTimeSheet`, inside the transaction
`tx`: the new transaction state, or the response that ends the upload. -/
def processRecord (lib : Lib) (id : Int) (tx : DB) (record : List String) :
    Except Outcome DB :=
  match record[0]? with
  | none => .error (.crash none)
  | some f0 =>
  match lib.ParseTime f0 with
  | .error err => .error (.badRequest err)
  | .ok date =>
  match record[1]? with
  | none => .error (.crash none)
  | some f1 =>
  match lib.ParseFloat f1 with
  | .error err => .error (.badRequest err)
  | .ok hours =>
  match record[2]? with
  | none => .error (.crash none)
  | some f2 =>
  match lib.Atoi f2 with
  | .error err => .error (.badRequest err)
  | .ok employeeID =>
  match record[3]? with
  | none => .error (.crash none)
  | some f3 =>
    match storeRecord lib id tx date hours employeeID f3 with
    | .error err => .error (.badRequest err)
    | .ok tx1 => .ok tx1

/-- The row loop `for _, record := range lines[1:]`: stops at the first failure. -/
def insertRecords (lib : Lib) (id : Int) : DB → List (List String) → Except Outcome DB
  | tx, [] => .ok tx
  | tx, record :: rest =>
    match processRecord lib id tx record with
    | .error out => .error out
    | .ok tx1 => insertRecords lib id tx1 rest

/-- The call `a.DB.Transaction(fc)`: commits the state `fc` returns, or on a
failure of `fc` rolls back to the state before the call. -/
def Transaction (db : DB) (fc : DB → Except Outcome DB) : DB × Option Outcome :=
  match fc db with
  | .ok tx => (tx, none)
  | .error out => (db, some out)

/-- The header test of `insertTimeSheet`; `true` when the header is refused. -/
def badHeader (header : List String) : Bool :=
  header.length ≠ 4 ||
    header[0]? ≠ some "date" || header[1]? ≠ some "hours worked" ||
    header[2]? ≠ some "employee id" || header[3]? ≠ some "job group"

/-- Retrieves a CSV from a HTTP POST request and uploads its contents to the
database.  `filename` and `content` are the name and the bytes of the form
file `file` (a request without that file is answered before anything else
happens); the result is the store after the call and the response. -/
def insertTimeSheet (lib : Lib) (db : DB) (filename content : String) : DB × Outcome :=
  let split := splitExt filename
  let fn := split.1
  let ext := split.2
  if ext ≠ ".csv" then
    (db, .badRequest "Expected a CSV (.csv) file")
  else
  match (Split fn '-')[2]? with
  | none => (db, .crash none)
  | some part =>
  match lib.ParseInt part with
  | .error _ =>
    (db, .badRequest
      "The provided filename is incorrectly formated. Expected time-report-\x7bid\x7d.csv")
  | .ok id =>
  if timeSheetExists db id then
    (db, .badRequest ("A record with ID: " ++ fmtInt id ++ " already exists"))
  else
  match lib.ReadAll content with
  | .error _ => (db, .crash (some "Unable to read csv"))
  | .ok [] => (db, .crash none)
  | .ok (header :: rows) =>
  if badHeader header then
    (db, .badRequest
      "Incorrect number of column headers found. Expected: date,hours worked,employee id,job group")
  else
  match Transaction db (fun tx => insertRecords lib id tx rows) with
  | (db1, some out) => (db1, out)
  | (db1, none) => (db1, .success ("Success! Added time report with ID: " ++ fmtInt id))

/-- Modelled from the spec: the declaration of `models.PayrollReport`, the value
`getPayrollReport` encodes, is not among the sources.  The spec has the
retrieval return the ordered collection of rendered aggregates wrapped under
a named field. -/
structure PayrollReport where
  employeeReports : List EmployeeReportJSON
deriving DecidableEq, Repr

/-- Returns all entries in employee_reports as JSON. -/
def getPayrollReport (db : DB) : PayrollReport :=
  { employeeReports := (GetEmployeeReports db).map EmployeeReport.MarshalJSON }

/-! ## A concrete instance of the parameters

The instance follows the Go standard library on the inputs it is used for
below: unquoted CSV text, plain decimal literals and the spellings of the
non-finite values, base-10 integers.  Its collation ignores the case of the
letters `a` to `z`, its generated ids count on from the largest stored one. -/

/-- All characters are decimal digits and there is at least one: their value. -/
def parseDigits (cs : List Char) : Option Nat :=
  if cs ≠ [] ∧ cs.all Char.isDigit then
    some (cs.foldl (fun acc c => acc * 10 + (c.toNat - 48)) 0)
  else none

/-- A signed base-10 integer: optional sign, then digits. -/
def parseSigned (cs : List Char) : Option Int :=
  match cs with
  | '-' :: rest => (parseDigits rest).map (fun n => - Int.ofNat n)
  | '+' :: rest => (parseDigits rest).map Int.ofNat
  | _ => (parseDigits cs).map Int.ofNat

/-- Text of a `strconv.NumError`. -/
def numError (func s msg : String) : String :=
  "strconv." ++ func ++ ": parsing " ++ s.quote ++ ": " ++ msg

/-- Base-10 integer of `bits` bits, as `strconv` parses it. -/
def goParseSigned (func : String) (bits : Nat) (s : String) : Except String Int :=
  match parseSigned s.toList with
  | none => .error (numError func s "invalid syntax")
  | some i =>
    if - (2 : Int) ^ (bits - 1) ≤ i ∧ i < (2 : Int) ^ (bits - 1) then .ok i
    else .error (numError func s "value out of range")

/-- The text in lower case, letters `A` to `Z` only. -/
def lowerChars (cs : List Char) : List Char :=
  cs.map Char.toLower

/-- Plain decimal literal (optional sign, digits, optional fraction), or one
of the spellings `inf`, `infinity` (optional sign) and `nan`, in any case. -/
def goParseFloat (s : String) : Except String Float32 :=
  let body := match s.toList with
    | '-' :: rest => rest
    | '+' :: rest => rest
    | cs => cs
  let neg := s.toList.head? = some '-'
  if lowerChars body = "inf".toList ∨ lowerChars body = "infinity".toList then
    .ok (if neg then .negInf else .posInf)
  else if lowerChars s.toList = "nan".toList then .ok .nan
  else
  let value : Option ℚ :=
    match splitChars '.' body with
    | [ip] => (parseDigits ip).map (fun n => (n : ℚ))
    | [ip, fp] =>
      if ip = [] ∧ fp = [] then none
      else
        match parseDigits (if ip = [] then ['0'] else ip),
              parseDigits (if fp = [] then ['0'] else fp) with
        | some n, some f => some ((n : ℚ) + (f : ℚ) / 10 ^ fp.length)
        | _, _ => none
    | _ => none
  match value with
  | some v => .ok (.finite (if neg then - v else v))
  | none => .error (numError "ParseFloat" s "invalid syntax")

/-- The helper `getnum(s, false)` of package time: one or two leading digits. -/
def getnum : List Char → Option (Nat × List Char)
  | [] => none
  | [c] => if c.isDigit then some (c.toNat - 48, []) else none
  | c1 :: c2 :: rest =>
    if c1.isDigit then
      if c2.isDigit then some ((c1.toNat - 48) * 10 + (c2.toNat - 48), rest)
      else some (c1.toNat - 48, c2 :: rest)
    else none

/-- Text of a `time.ParseError` without message. -/
def cannotParse (s : String) (value : List Char) (elem : String) : String :=
  "parsing time " ++ s.quote ++ " as " ++ "2/1/2006".quote ++ ": cannot parse " ++
    (String.mk value).quote ++ " as " ++ elem.quote

/-- The call `time.Parse("2/1/2006", s)`: day, month, four-digit year, separated
by slashes; the day is checked against the month once all fields are read. -/
def goParseTime (s : String) : Except String Time :=
  match getnum s.toList with
  | none => .error (cannotParse s s.toList "2")
  | some (day, v1) =>
  match v1 with
  | '/' :: v2 =>
    match getnum v2 with
    | none => .error (cannotParse s v2 "1")
    | some (month, v3) =>
    if month = 0 ∨ 12 < month then
      .error ("parsing time " ++ s.quote ++ ": month out of range")
    else
    match v3 with
    | '/' :: v4 =>
      match parseDigits (v4.take 4) with
      | none => .error (cannotParse s v4 "2006")
      | some year =>
        if v4.length < 4 then .error (cannotParse s v4 "2006")
        else if v4.drop 4 ≠ [] then
          .error ("parsing time " ++ s.quote ++ ": extra text: " ++ (String.mk (v4.drop 4)).quote)
        else if day < 1 ∨ daysIn year month < day then
          .error ("parsing time " ++ s.quote ++ ": day out of range")
        else .ok ⟨year, month, day, 0⟩
    | _ => .error (cannotParse s v3 "/")
  | _ => .error (cannotParse s v1 "/")

/-- Records of unquoted CSV text: lines split at commas, empty lines skipped,
every record as long as the first. -/
def goReadAll (content : String) : Except String (List (List String)) :=
  let lines := (splitChars '\n' content.toList).map
    (fun l => if l.getLast? = some '\r' then l.dropLast else l)
  let records := (lines.filter (fun l => l ≠ [])).map
    (fun l => (splitChars ',' l).map String.mk)
  match records with
  | [] => .ok []
  | first :: _ =>
    if records.all (fun r => r.length = first.length) then .ok records
    else .error "wrong number of fields"

/-- The leading text of the MySQL error for a refused statement. -/
def mysqlError : StoreFault → String
  | .foreignKey =>
    "Error 1452: Cannot add or update a child row: a foreign key constraint fails"
  | .outOfRange => "Error 1264: Out of range value"
  | .tooLong => "Error 1406: Data too long for column"

/-- The instance used for the concrete runs. -/
def goLib : Lib :=
  { ReadAll := goReadAll
    ParseTime := goParseTime
    ParseFloat := goParseFloat
    Atoi := goParseSigned "Atoi" 64
    ParseInt := goParseSigned "ParseInt" 32
    SameKey := fun a b => lowerChars a.toList = lowerChars b.toList
    NextID := fun rows => rows.foldl (fun m r => max m r.ID) 0 + 1
    StoreError := mysqlError }

/-! ## Predicates used to state the properties -/

/-- A data row of four fields whose date, hours and employee id all parse. -/
def Lib.rowParses (lib : Lib) (record : List String) : Bool :=
  match record with
  | [f0, f1, f2, _] =>
    (lib.ParseTime f0).isOk && (lib.ParseFloat f1).isOk && (lib.Atoi f2).isOk
  | _ => false

/-- A date that a `DATETIME` column is documented to hold: a well-formed
instant of the years 1000 to 9999. -/
def Time.Storable (t : Time) : Prop :=
  t.Valid ∧ 1000 ≤ t.year ∧ t.year ≤ 9999

instance (t : Time) : Decidable t.Storable := by
  unfold Time.Storable; infer_instance

/-- A job group that a `varchar(191)` key column holds and that gorm saves as
an association: a text of 1 to 191 characters. -/
def GroupStorable (group : String) : Prop :=
  group ≠ "" ∧ group.length ≤ 191

instance (group : String) : Decidable (GroupStorable group) := by
  unfold GroupStorable; infer_instance

/-- The fields of a data row as the row loop reads them, the hours finite. -/
structure Row where
  date : Time
  hours : ℚ
  employeeID : Int
  group : String
deriving DecidableEq, Repr

/-- The fields of a data row of four columns, when they all parse and the
hours are finite. -/
def Lib.readRow (lib : Lib) (record : List String) : Option Row :=
  match record with
  | [f0, f1, f2, f3] =>
    match lib.ParseTime f0, lib.ParseFloat f1, lib.Atoi f2 with
    | .ok date, .ok (.finite hours), .ok employeeID => some ⟨date, hours, employeeID, f3⟩
    | _, _, _ => none
  | _ => none

/-- Fields that the store takes: a storable date and a storable job group. -/
def Row.Storable (r : Row) : Prop :=
  r.date.Storable ∧ GroupStorable r.group

instance (r : Row) : Decidable r.Storable := by
  unfold Row.Storable; infer_instance

/-- A valid data row: four fields that parse, with finite hours, a storable
date and a storable job group. -/
def Lib.rowValid (lib : Lib) (record : List String) : Prop :=
  ∃ r, lib.readRow record = some r ∧ r.Storable

/-- The amount stored for an employee and a pay-period start; zero when no
aggregate is stored for them. -/
def storedAmount (db : DB) (employeeID : Nat) (start : Time) : ℚ :=
  ((db.employee_reports.filter
    (fun r => r.EmployeeID = employeeID ∧ r.PayPeriodID = start)).map (fun r => r.Amount)).sum

/-- Every stored pay group other than the seeded `A` and `B` has rate zero. -/
def SeededRates (db : DB) : Prop :=
  ∀ g ∈ db.pay_groups, g.ID = "A" ∨ g.ID = "B" ∨ g.Rate = 0

/-- At most one aggregate is stored per employee and pay-period start. -/
def UniqueAggregates (db : DB) : Prop :=
  (db.employee_reports.map (fun r => (r.EmployeeID, r.PayPeriodID))).Nodup

/-- The header row the handler expects. -/
def expectedHeader : List String :=
  ["date", "hours worked", "employee id", "job group"]

/-! ## Facts about the calendar model -/

theorem daysIn_ge (year : Int) (month : Nat) : 28 ≤ daysIn year month := by
  unfold daysIn
  split_ifs <;> omega

theorem addDays_within (n : Nat) (t : Time) (h : t.day + n ≤ daysIn t.year t.month) :
    addDays t n = { t with day := t.day + n } := by
  induction n generalizing t with
  | zero => simp [addDays]
  | succ k ih =>
    have hlt : t.day < daysIn t.year t.month := by omega
    have hstep : nextDay t = { t with day := t.day + 1 } := by simp [nextDay, hlt]
    rw [addDays, hstep, ih]
    · simp; omega
    · simpa using (by omega : t.day + 1 + k ≤ daysIn t.year t.month)

theorem Date_inRange (year : Int) (month day sec : Nat) (hm1 : 1 ≤ month) (hm2 : month ≤ 12)
    (hd1 : 1 ≤ day) (hd2 : day ≤ daysIn year month) :
    Date year month day sec = ⟨year, month, day, sec⟩ := by
  have h1 : (month - 1) / 12 = 0 := by omega
  have h2 : (month - 1) % 12 + 1 = month := by omega
  unfold Date
  rw [h1, h2, addDays_within]
  · simp; omega
  · simp; omega

theorem getStartDate_eq (d : Time) (h : d.Valid) :
    getStartDate d = ⟨d.year, d.month, 1, 0⟩ := by
  obtain ⟨h1, h2, -, -, -⟩ := h
  have := daysIn_ge d.year d.month
  exact Date_inRange _ _ _ _ h1 h2 (by omega) (by omega)

theorem getEndDate_eq (d : Time) (h : d.Valid) :
    getEndDate d = ⟨d.year, d.month, daysIn d.year d.month, 86399⟩ := by
  have h1 : 1 ≤ d.month := h.1
  have h2 : d.month ≤ 12 := h.2.1
  unfold getEndDate
  rw [getStartDate_eq d h]
  unfold Time.AddDate Date
  simp only [addDays, Nat.add_sub_cancel, add_zero]
  by_cases h12 : d.month = 12
  · simp [h12, Time.subSecond, prevDay, daysIn]
  · have e1 : d.month / 12 = 0 := by omega
    have e2 : d.month % 12 + 1 = d.month + 1 := by omega
    have e3 : 0 < d.month := by omega
    simp [e1, e2, e3, Time.subSecond, prevDay]


theorem payPeriodOf_first (d : Time) (h : d.Valid) (hlt : d.day < 16) :
    payPeriodOf d = ⟨⟨d.year, d.month, 1, 0⟩, ⟨d.year, d.month, 15, 0⟩⟩ := by
  have h28 := daysIn_ge d.year d.month
  have hadd : (⟨d.year, d.month, 1, 0⟩ : Time).AddDate 0 0 14 = ⟨d.year, d.month, 15, 0⟩ := by
    unfold Time.AddDate
    simpa using Date_inRange d.year d.month 15 0 h.1 h.2.1 (by omega) (by omega)
  simp [payPeriodOf, hlt, getStartDate_eq d h, hadd]

theorem payPeriodOf_second (d : Time) (h : d.Valid) (hge : 16 ≤ d.day) :
    payPeriodOf d = ⟨⟨d.year, d.month, 16, 0⟩, ⟨d.year, d.month, daysIn d.year d.month, 86399⟩⟩ := by
  have h28 := daysIn_ge d.year d.month
  have hadd : (⟨d.year, d.month, 1, 0⟩ : Time).AddDate 0 0 15 = ⟨d.year, d.month, 16, 0⟩ := by
    unfold Time.AddDate
    simpa using Date_inRange d.year d.month 16 0 h.1 h.2.1 (by omega) (by omega)
  have hnot : ¬ d.day < 16 := by omega
  simp [payPeriodOf, hnot, getStartDate_eq d h, getEndDate_eq d h, hadd]

/-! ## Pay-period claims -/

/-- C1 (as the code has it): for every calendar date on or after the 16th, the
pay period starts at midnight of the 16th of the month of the date and ends
with `getEndDate`, the last second of the last day of that month. -/
theorem payPeriod_second_half (d : Time) (hd : d.IsDate) (h : 16 ≤ d.day) :
    (payPeriodOf d).StartDate = ⟨d.year, d.month, 16, 0⟩ ∧
    (payPeriodOf d).EndDate = getEndDate d ∧
    (payPeriodOf d).EndDate = ⟨d.year, d.month, daysIn d.year d.month, 86399⟩ := by
  rw [payPeriodOf_second d hd.1 h, getEndDate_eq d hd.1]
  exact ⟨rfl, rfl, rfl⟩

theorem payPeriod_second_half_witness :
    (⟨2023, 2, 20, 0⟩ : Time).IsDate ∧ 16 ≤ (⟨2023, 2, 20, 0⟩ : Time).day ∧
    (payPeriodOf ⟨2023, 2, 20, 0⟩).StartDate = ⟨2023, 2, 16, 0⟩ ∧
    (payPeriodOf ⟨2023, 2, 20, 0⟩).EndDate = getEndDate ⟨2023, 2, 20, 0⟩ ∧
    (payPeriodOf ⟨2023, 2, 20, 0⟩).EndDate = ⟨2023, 2, daysIn 2023 2, 86399⟩ :=
  ⟨by decide, by decide, payPeriod_second_half ⟨2023, 2, 20, 0⟩ (by decide) (by decide)⟩

/-- C1 as stated fails: for 20 February 2023 the period ends on 28 February at
23:59:59, while the start plus 14 days is 2 March; for 16 January 2023 it ends
on 31 January, while the start plus 14 days is 30 January. -/
theorem payPeriod_second_half_not_start_plus_14 :
    (⟨2023, 2, 20, 0⟩ : Time).IsDate ∧
    (payPeriodOf ⟨2023, 2, 20, 0⟩).EndDate = ⟨2023, 2, 28, 86399⟩ ∧
    (payPeriodOf ⟨2023, 2, 20, 0⟩).StartDate.AddDate 0 0 14 = ⟨2023, 3, 2, 0⟩ ∧
    (payPeriodOf ⟨2023, 2, 20, 0⟩).EndDate ≠
      (payPeriodOf ⟨2023, 2, 20, 0⟩).StartDate.AddDate 0 0 14 ∧
    (payPeriodOf ⟨2023, 1, 16, 0⟩).EndDate = ⟨2023, 1, 31, 86399⟩ ∧
    (payPeriodOf ⟨2023, 1, 16, 0⟩).StartDate.AddDate 0 0 14 = ⟨2023, 1, 30, 0⟩ :=
  ⟨by decide, by decide, by decide,
    fun h => absurd (congrArg Time.day h) (by decide), by decide, by decide⟩

/-- C2: for every calendar date before the 16th, the pay period starts with
`getStartDate`, midnight of the first day of the month of the date, and ends
14 days after its start, at midnight of the 15th of the same month. -/
theorem payPeriod_first_half (d : Time) (hd : d.IsDate) (h : d.day < 16) :
    (payPeriodOf d).StartDate = getStartDate d ∧
    (payPeriodOf d).StartDate = ⟨d.year, d.month, 1, 0⟩ ∧
    (payPeriodOf d).EndDate = (payPeriodOf d).StartDate.AddDate 0 0 14 ∧
    (payPeriodOf d).EndDate = ⟨d.year, d.month, 15, 0⟩ := by
  have h28 := daysIn_ge d.year d.month
  have hadd : (⟨d.year, d.month, 1, 0⟩ : Time).AddDate 0 0 14 = ⟨d.year, d.month, 15, 0⟩ := by
    unfold Time.AddDate
    simpa using Date_inRange d.year d.month 15 0 hd.1.1 hd.1.2.1 (by omega) (by omega)
  rw [payPeriodOf_first d hd.1 h, getStartDate_eq d hd.1]
  exact ⟨rfl, rfl, hadd.symm, rfl⟩

theorem payPeriod_first_half_witness :
    (⟨2023, 3, 1, 0⟩ : Time).IsDate ∧ (⟨2023, 3, 1, 0⟩ : Time).day < 16 ∧
    (payPeriodOf ⟨2023, 3, 1, 0⟩).StartDate = getStartDate ⟨2023, 3, 1, 0⟩ ∧
    (payPeriodOf ⟨2023, 3, 1, 0⟩).StartDate = ⟨2023, 3, 1, 0⟩ ∧
    (payPeriodOf ⟨2023, 3, 1, 0⟩).EndDate = (payPeriodOf ⟨2023, 3, 1, 0⟩).StartDate.AddDate 0 0 14 ∧
    (payPeriodOf ⟨2023, 3, 1, 0⟩).EndDate = ⟨2023, 3, 15, 0⟩ :=
  ⟨by decide, by decide, payPeriod_first_half ⟨2023, 3, 1, 0⟩ (by decide) (by decide)⟩

/-- C10: for every calendar date `d` the pay period contains `d` and lies in
the month of `d`, and a date `e` of the same month has the same period exactly
when both are before the 16th or both are on or after it. -/
theorem payPeriod_contains_date (d e : Time) (hd : d.IsDate) (he : e.IsDate)
    (hy : e.year = d.year) (hm : e.month = d.month) :
    Time.le (payPeriodOf d).StartDate d ∧ Time.le d (payPeriodOf d).EndDate ∧
    (payPeriodOf d).StartDate.year = d.year ∧ (payPeriodOf d).StartDate.month = d.month ∧
    (payPeriodOf d).EndDate.year = d.year ∧ (payPeriodOf d).EndDate.month = d.month ∧
    (payPeriodOf d = payPeriodOf e ↔
      ((d.day < 16 ∧ e.day < 16) ∨ (16 ≤ d.day ∧ 16 ≤ e.day))) := by
  obtain ⟨hv, hs⟩ := hd
  obtain ⟨hve, -⟩ := he
  have hd1 : 1 ≤ d.day := hv.2.2.1
  have hd2 : d.day ≤ daysIn d.year d.month := hv.2.2.2.1
  have h28 := daysIn_ge d.year d.month
  by_cases hlt : d.day < 16
  · rw [payPeriodOf_first d hv hlt]
    refine ⟨?_, ?_, rfl, rfl, rfl, rfl, ?_⟩
    · exact Or.inr ⟨rfl, Or.inr ⟨rfl, by simp only []; omega⟩⟩
    · exact Or.inr ⟨rfl, Or.inr ⟨rfl, by simp only []; omega⟩⟩
    · by_cases hlt2 : e.day < 16
      · rw [payPeriodOf_first e hve hlt2, hy, hm]
        simp [hlt, hlt2]
      · rw [payPeriodOf_second e hve (by omega)]
        have : ¬ (16 ≤ d.day) := by omega
        simp [hlt, hlt2, this]
  · have hge : 16 ≤ d.day := by omega
    rw [payPeriodOf_second d hv hge]
    refine ⟨?_, ?_, rfl, rfl, rfl, rfl, ?_⟩
    · exact Or.inr ⟨rfl, Or.inr ⟨rfl, by simp only []; omega⟩⟩
    · exact Or.inr ⟨rfl, Or.inr ⟨rfl, by simp only []; omega⟩⟩
    · by_cases hlt2 : e.day < 16
      · rw [payPeriodOf_first e hve hlt2]
        have : ¬ (16 ≤ e.day) := by omega
        simp [hlt, hlt2, this]
      · rw [payPeriodOf_second e hve (by omega), hy, hm]
        have : 16 ≤ e.day := by omega
        simp [hlt, hge, this]

theorem payPeriod_contains_date_witness :
    (⟨2024, 2, 29, 0⟩ : Time).IsDate ∧ (⟨2024, 2, 16, 0⟩ : Time).IsDate ∧
    Time.le (payPeriodOf ⟨2024, 2, 29, 0⟩).StartDate ⟨2024, 2, 29, 0⟩ ∧
    Time.le ⟨2024, 2, 29, 0⟩ (payPeriodOf ⟨2024, 2, 29, 0⟩).EndDate ∧
    (payPeriodOf ⟨2024, 2, 29, 0⟩).StartDate.year = 2024 ∧
    (payPeriodOf ⟨2024, 2, 29, 0⟩).StartDate.month = 2 ∧
    (payPeriodOf ⟨2024, 2, 29, 0⟩).EndDate.year = 2024 ∧
    (payPeriodOf ⟨2024, 2, 29, 0⟩).EndDate.month = 2 ∧
    (payPeriodOf ⟨2024, 2, 29, 0⟩ = payPeriodOf ⟨2024, 2, 16, 0⟩ ↔
      (((29 : Nat) < 16 ∧ (16 : Nat) < 16) ∨ (16 ≤ (29 : Nat) ∧ 16 ≤ (16 : Nat)))) :=
  ⟨by decide, by decide,
    payPeriod_contains_date ⟨2024, 2, 29, 0⟩ ⟨2024, 2, 16, 0⟩ (by decide) (by decide) rfl rfl⟩


/-! ## Facts about the handler -/

theorem badHeader_eq_false_iff (header : List String) :
    badHeader header = false ↔ header = expectedHeader := by
  rcases header with _ | ⟨a, _ | ⟨b, _ | ⟨c, _ | ⟨d, _ | ⟨e, t⟩⟩⟩⟩⟩ <;>
    simp [badHeader, expectedHeader, and_assoc]

theorem badHeader_of_ne (header : List String) (h : header ≠ expectedHeader) :
    badHeader header = true := by
  cases hb : badHeader header with
  | true => rfl
  | false => exact absurd ((badHeader_eq_false_iff header).1 hb) h

theorem processRecord_parsed (lib : Lib) (id : Int) (tx : DB) (f0 f1 f2 f3 : String)
    (date : Time) (hours : Float32) (emp : Int) (h0 : lib.ParseTime f0 = .ok date)
    (h1 : lib.ParseFloat f1 = .ok hours) (h2 : lib.Atoi f2 = .ok emp) :
    processRecord lib id tx [f0, f1, f2, f3] =
      match storeRecord lib id tx date hours emp f3 with
      | .error err => .error (.badRequest err)
      | .ok tx1 => .ok tx1 := by
  simp [processRecord, h0, h1, h2]

theorem processRecord_ok (lib : Lib) (id : Int) (tx tx1 : DB) (f0 f1 f2 f3 : String)
    (date : Time) (hours : Float32) (emp : Int) (h0 : lib.ParseTime f0 = .ok date)
    (h1 : lib.ParseFloat f1 = .ok hours) (h2 : lib.Atoi f2 = .ok emp)
    (hs : storeRecord lib id tx date hours emp f3 = .ok tx1) :
    processRecord lib id tx [f0, f1, f2, f3] = .ok tx1 := by
  rw [processRecord_parsed lib id tx f0 f1 f2 f3 date hours emp h0 h1 h2, hs]

theorem processRecord_four (lib : Lib) (id : Int) (tx : DB) (record : List String)
    (hlen : record.length = 4) :
    (∃ tx1, processRecord lib id tx record = .ok tx1) ∨
    ∃ err, processRecord lib id tx record = .error (.badRequest err) := by
  rcases record with _ | ⟨f0, _ | ⟨f1, _ | ⟨f2, _ | ⟨f3, _ | ⟨f4, t⟩⟩⟩⟩⟩ <;>
    simp at hlen
  cases h0 : lib.ParseTime f0 with
  | error e => exact Or.inr ⟨e, by simp [processRecord, h0]⟩
  | ok date =>
    cases h1 : lib.ParseFloat f1 with
    | error e => exact Or.inr ⟨e, by simp [processRecord, h0, h1]⟩
    | ok hours =>
      cases h2 : lib.Atoi f2 with
      | error e => exact Or.inr ⟨e, by simp [processRecord, h0, h1, h2]⟩
      | ok emp =>
        rw [processRecord_parsed lib id tx f0 f1 f2 f3 date hours emp h0 h1 h2]
        cases storeRecord lib id tx date hours emp f3 with
        | error e => exact Or.inr ⟨e, rfl⟩
        | ok tx1 => exact Or.inl ⟨tx1, rfl⟩

theorem processRecord_fails (lib : Lib) (id : Int) (tx : DB) (record : List String)
    (hlen : record.length = 4) (hbad : lib.rowParses record = false) :
    ∃ err, processRecord lib id tx record = .error (.badRequest err) := by
  rcases record with _ | ⟨f0, _ | ⟨f1, _ | ⟨f2, _ | ⟨f3, _ | ⟨f4, t⟩⟩⟩⟩⟩ <;>
    simp at hlen
  simp only [Lib.rowParses] at hbad
  cases h0 : lib.ParseTime f0 with
  | error e => exact ⟨e, by simp [processRecord, h0]⟩
  | ok date =>
    cases h1 : lib.ParseFloat f1 with
    | error e => exact ⟨e, by simp [processRecord, h0, h1]⟩
    | ok hours =>
      cases h2 : lib.Atoi f2 with
      | error e => exact ⟨e, by simp [processRecord, h0, h1, h2]⟩
      | ok emp => simp [h0, h1, h2, Except.isOk, Except.toBool] at hbad

theorem insertRecords_fails (lib : Lib) (id : Int) (rows : List (List String)) :
    ∀ tx : DB, (∀ r ∈ rows, r.length = 4) → (∃ r ∈ rows, lib.rowParses r = false) →
      ∃ err, insertRecords lib id tx rows = .error (.badRequest err) := by
  induction rows with
  | nil => intro tx _ h; simp at h
  | cons r rest ih =>
    intro tx hlen hbad
    cases hr : lib.rowParses r with
    | false =>
      obtain ⟨err, he⟩ := processRecord_fails lib id tx r (hlen r (by simp)) hr
      exact ⟨err, by simp [insertRecords, he]⟩
    | true =>
      rcases processRecord_four lib id tx r (hlen r (by simp)) with ⟨tx1, h1⟩ | ⟨err, he⟩
      · have hrest : ∃ r' ∈ rest, lib.rowParses r' = false := by
          obtain ⟨r', hmem, hf⟩ := hbad
          rcases List.mem_cons.1 hmem with rfl | hin
          · rw [hr] at hf; cases hf
          · exact ⟨r', hin, hf⟩
        obtain ⟨err, he⟩ := ih tx1 (fun x hx => hlen x (List.mem_cons_of_mem _ hx)) hrest
        exact ⟨err, by simp [insertRecords, h1, he]⟩
      · exact ⟨err, by simp [insertRecords, he]⟩

theorem readRow_some (lib : Lib) (record : List String) (r : Row)
    (h : lib.readRow record = some r) :
    ∃ f0 f1 f2, record = [f0, f1, f2, r.group] ∧ lib.ParseTime f0 = .ok r.date ∧
      lib.ParseFloat f1 = .ok (.finite r.hours) ∧ lib.Atoi f2 = .ok r.employeeID := by
  rcases record with _ | ⟨f0, _ | ⟨f1, _ | ⟨f2, _ | ⟨f3, _ | ⟨f4, t⟩⟩⟩⟩⟩ <;>
    simp only [Lib.readRow] at h <;> try cases h
  split at h
  · simp only [Option.some.injEq] at h
    subst h
    exact ⟨f0, f1, f2, rfl, by assumption, by assumption, by assumption⟩
  · cases h

/-! ## Facts about the store operations -/

theorem firstByKey_mem (l : List TimeSheetRow) (r : TimeSheetRow)
    (h : firstByKey l = some r) : r ∈ l := by
  induction l generalizing r with
  | nil => simp [firstByKey] at h
  | cons x t ih =>
    simp only [firstByKey] at h
    cases hf : firstByKey t with
    | none =>
      simp only [hf, Option.some.injEq] at h
      simp [h]
    | some b =>
      simp only [hf] at h
      split_ifs at h
      · simp only [Option.some.injEq] at h
        subst h
        exact List.mem_cons_of_mem _ (ih b hf)
      · simp only [Option.some.injEq] at h
        simp [h]

theorem firstByKey_nil_of_none (l : List TimeSheetRow) (h : firstByKey l = none) :
    l = [] := by
  cases l with
  | nil => rfl
  | cons x t =>
    simp only [firstByKey] at h
    cases hf : firstByKey t with
    | none => simp [hf] at h
    | some b =>
      simp only [hf] at h
      split_ifs at h

theorem payPeriodOf_not_zero (d : Time) (h : d.Storable) :
    (payPeriodOf d).StartDate ≠ zeroTime ∧ (payPeriodOf d).EndDate ≠ zeroTime := by
  obtain ⟨hv, hy, -⟩ := h
  have hne : ∀ t : Time, t.year = d.year → t ≠ zeroTime := by
    intro t ht hz
    rw [hz] at ht
    simp only [zeroTime] at ht
    omega
  by_cases hlt : d.day < 16
  · rw [payPeriodOf_first d hv hlt]
    exact ⟨hne _ rfl, hne _ rfl⟩
  · rw [payPeriodOf_second d hv (by omega)]
    exact ⟨hne _ rfl, hne _ rfl⟩

theorem Storable_not_zero (d : Time) (h : d.Storable) : d ≠ zeroTime := by
  intro hz
  have := h.2.1
  rw [hz] at this
  simp only [zeroTime] at this
  omega


theorem CreatetTimeSheet_ok (lib : Lib) (t : TimeSheet) (db db1 : DB) (t1 : TimeSheet)
    (h : t.CreatetTimeSheet lib db = .ok (db1, t1)) :
    (∀ x ∈ db.time_sheets, x ∈ db1.time_sheets) ∧
    (t.ID ≠ 0 → ∃ x ∈ db1.time_sheets, x.ID = t.ID) ∧
    (t.Date ≠ zeroTime → t1.Date = t.Date) ∧
    (∃ hours, t1.Hours = .finite hours) ∧
    db1.pay_periods = db.pay_periods ∧ db1.employee_reports = db.employee_reports ∧
    (db1.pay_groups = db.pay_groups ∨ db1.pay_groups = db.pay_groups ++ [t.PayGroup]) := by
  unfold TimeSheet.CreatetTimeSheet at h
  cases hf : firstByKey (db.time_sheets.filter (fun r =>
      (t.ID = 0 ∨ r.ID = t.ID) ∧ (t.Date = zeroTime ∨ r.Date = t.Date) ∧
      (t.EmployeeID = 0 ∨ r.EmployeeID = t.EmployeeID))) with
  | some r =>
    rw [hf] at h
    simp only [Except.ok.injEq, Prod.mk.injEq] at h
    obtain ⟨rfl, rfl⟩ := h
    have hmem := firstByKey_mem _ r hf
    rw [List.mem_filter] at hmem
    obtain ⟨hin, hcond⟩ := hmem
    simp only [decide_eq_true_eq] at hcond
    refine ⟨fun x hx => hx, ?_, ?_, ⟨r.Hours, rfl⟩, rfl, rfl, Or.inl rfl⟩
    · intro hid
      exact ⟨r, hin, hcond.1.resolve_left hid⟩
    · intro hd
      exact hcond.2.1.resolve_left hd
  | none =>
    rw [hf] at h
    simp only [] at h
    by_cases hs : t.PayGroup = { ID := "", Rate := 0 }
    · cases hh : t.Hours with
      | posInf => simp [hs, hh] at h
      | negInf => simp [hs, hh] at h
      | nan => simp [hs, hh] at h
      | finite hours =>
        simp only [hs, hh, ne_eq, not_true_eq_false, false_and, if_false] at h
        split_ifs at h <;>
          simp only [Except.ok.injEq, Prod.mk.injEq] at h <;>
          obtain ⟨rfl, rfl⟩ := h <;>
          simp_all
        all_goals exact ⟨_, Or.inr rfl, rfl⟩
    · by_cases hl : 191 < t.PayGroup.ID.length
      · simp [hs, hl] at h
      · cases hh : t.Hours with
        | posInf => simp [hs, hl, hh] at h
        | negInf => simp [hs, hl, hh] at h
        | nan => simp [hs, hl, hh] at h
        | finite hours =>
          simp only [hs, hl, hh, ne_eq, not_false_eq_true, true_and, and_false, if_false,
            if_true] at h
          split_ifs at h <;>
            simp only [Except.ok.injEq, Prod.mk.injEq] at h <;>
            obtain ⟨rfl, rfl⟩ := h <;>
            simp_all <;>
            exact ⟨_, Or.inr rfl, rfl⟩


theorem keyEq_self (lib : Lib) (s : String) : lib.keyEq s s = true := by
  simp [Lib.keyEq]

theorem CreatetTimeSheet_fresh (lib : Lib) (t : TimeSheet) (db : DB) (group : String)
    (hours : ℚ) (hg : t.PayGroup = { ID := group, Rate := 0 }) (hgs : GroupStorable group)
    (hh : t.Hours = .finite hours)
    (hd : t.Date ≠ zeroTime) (hid : t.ID ≠ 0) (he : t.EmployeeID ≠ 0)
    (hfresh : ∀ r ∈ db.time_sheets,
      ¬ (r.ID = t.ID ∧ r.Date = t.Date ∧ r.EmployeeID = t.EmployeeID)) :
    ∃ db1, t.CreatetTimeSheet lib db = .ok (db1, { t with PayGroupID := group }) ∧
      db1.time_sheets = db.time_sheets ++
        [{ ID := t.ID, Date := t.Date, EmployeeID := t.EmployeeID, Hours := hours,
           PayGroupID := group }] ∧
      db1.pay_periods = db.pay_periods ∧
      db1.employee_reports = db.employee_reports ∧
      (db1.pay_groups = db.pay_groups ∨
        db1.pay_groups = db.pay_groups ++ [{ ID := group, Rate := 0 }]) := by
  have hnone : firstByKey (db.time_sheets.filter (fun r =>
      (t.ID = 0 ∨ r.ID = t.ID) ∧ (t.Date = zeroTime ∨ r.Date = t.Date) ∧
      (t.EmployeeID = 0 ∨ r.EmployeeID = t.EmployeeID))) = none := by
    have hnil : db.time_sheets.filter (fun r =>
        (t.ID = 0 ∨ r.ID = t.ID) ∧ (t.Date = zeroTime ∨ r.Date = t.Date) ∧
        (t.EmployeeID = 0 ∨ r.EmployeeID = t.EmployeeID)) = [] := by
      rw [List.filter_eq_nil_iff]
      intro r hr hc
      simp only [decide_eq_true_eq] at hc
      exact hfresh r hr ⟨hc.1.resolve_left hid, hc.2.1.resolve_left hd, hc.2.2.resolve_left he⟩
    rw [hnil]
    rfl
  have hne : ({ ID := group, Rate := 0 } : PayGroup) ≠ { ID := "", Rate := 0 } := by
    simp [hgs.1]
  have hlen : ¬ 191 < group.length := by
    have := hgs.2
    omega
  unfold TimeSheet.CreatetTimeSheet
  rw [hnone]
  by_cases hany : db.pay_groups.any (fun g => lib.keyEq g.ID group) = true
  · have hany2 := hany
    simp only [List.any_eq_true] at hany2
    simp [hg, hne, hlen, hh, hd, hid, hany, hany2]
  · have hany2 := hany
    simp only [List.any_eq_true, not_exists, not_and, Bool.not_eq_true] at hany2
    simp [hg, hne, hlen, hh, hd, hid, hany, hany2, keyEq_self]

theorem CreatetTimeSheet_accepts (lib : Lib) (t : TimeSheet) (db : DB) (group : String)
    (hours : ℚ) (hg : t.PayGroup = { ID := group, Rate := 0 }) (hgs : GroupStorable group)
    (hh : t.Hours = .finite hours) (hd : t.Date ≠ zeroTime) :
    ∃ db1 t1, t.CreatetTimeSheet lib db = .ok (db1, t1) := by
  have hne : ({ ID := group, Rate := 0 } : PayGroup) ≠ { ID := "", Rate := 0 } := by
    simp [hgs.1]
  have hlen : ¬ 191 < group.length := by
    have := hgs.2
    omega
  unfold TimeSheet.CreatetTimeSheet
  cases hf : firstByKey (db.time_sheets.filter (fun r =>
      (t.ID = 0 ∨ r.ID = t.ID) ∧ (t.Date = zeroTime ∨ r.Date = t.Date) ∧
      (t.EmployeeID = 0 ∨ r.EmployeeID = t.EmployeeID))) with
  | some r => exact ⟨_, _, rfl⟩
  | none =>
    by_cases hany : db.pay_groups.any (fun g => lib.keyEq g.ID group) = true
    · have hany2 := hany
      simp only [List.any_eq_true] at hany2
      simp [hg, hne, hlen, hh, hd, hany, hany2]
    · have hany2 := hany
      simp only [List.any_eq_true, not_exists, not_and, Bool.not_eq_true] at hany2
      simp [hg, hne, hlen, hh, hd, hany, hany2, keyEq_self]

theorem CreateEmpoyeeReport_accepts (lib : Lib) (e : EmployeeReport) (db : DB) (a : ℚ)
    (he : e.Amount = .finite a)
    (hs : e.PayPeriod.StartDate ≠ zeroTime) (hend : e.PayPeriod.EndDate ≠ zeroTime) :
    ∃ db2, e.CreateEmpoyeeReport lib db (.finite a) = .ok db2 ∧
      db2.time_sheets = db.time_sheets ∧ db2.pay_groups = db.pay_groups ∧
      db2.employee_reports =
        if db.employee_reports.any
            (fun r => r.EmployeeID = e.EmployeeID ∧ r.PayPeriodID = e.PayPeriod.StartDate) then
          db.employee_reports.map (fun r =>
            if r.EmployeeID = e.EmployeeID ∧ r.PayPeriodID = e.PayPeriod.StartDate then
              ({ r with Amount := r.Amount + a } : EmployeeReportRow)
            else r)
        else db.employee_reports ++
          [{ EmployeeID := e.EmployeeID, PayPeriodID := e.PayPeriod.StartDate,
             Amount := a }] := by
  have hsaved : e.PayPeriod ≠ { StartDate := zeroTime, EndDate := zeroTime } := by
    intro hz
    rw [hz] at hs
    exact hs rfl
  unfold EmployeeReport.CreateEmpoyeeReport
  have hfk : (db.pay_periods ++ [e.PayPeriod]).any
      (fun p => p.StartDate = e.PayPeriod.StartDate) = true := by
    simp
  by_cases hr : db.employee_reports.any
      (fun r => r.EmployeeID = e.EmployeeID ∧ r.PayPeriodID = e.PayPeriod.StartDate) = true <;>
    by_cases hp : db.pay_periods.any (fun p => p.StartDate = e.PayPeriod.StartDate) = true <;>
    simp only [hsaved, hs, hend, he, hp, hr, hfk, ne_eq, not_false_eq_true, true_and,
      or_self, and_false, if_false, if_true, and_self, not_true_eq_false,
      Bool.false_eq_true] <;>
    exact ⟨_, rfl, rfl, rfl, rfl⟩

theorem CreateEmpoyeeReport_ok (lib : Lib) (e : EmployeeReport) (db db2 : DB)
    (amount : Float32) (h : e.CreateEmpoyeeReport lib db amount = .ok db2) :
    db2.time_sheets = db.time_sheets ∧ db2.pay_groups = db.pay_groups := by
  unfold EmployeeReport.CreateEmpoyeeReport at h
  simp only [] at h
  repeat' split at h
  all_goals first
    | (simp only [Except.ok.injEq] at h
       subst h
       exact ⟨rfl, rfl⟩)
    | cases h


theorem Float32_mul_finite (a b : ℚ) :
    Float32.mul (.finite a) (.finite b) = .finite (a * b) := rfl

theorem storeRecord_ok (lib : Lib) (id : Int) (tx tx1 : DB) (date : Time) (hours : Float32)
    (emp : Int) (group : String) (h : storeRecord lib id tx date hours emp group = .ok tx1) :
    (∀ x ∈ tx.time_sheets, x ∈ tx1.time_sheets) ∧
    (toUint id ≠ 0 → ∃ x ∈ tx1.time_sheets, x.ID = toUint id) ∧
    (tx1.pay_groups = tx.pay_groups ∨
      tx1.pay_groups = tx.pay_groups ++ [{ ID := group, Rate := 0 }]) := by
  unfold storeRecord at h
  cases hc : TimeSheet.CreatetTimeSheet lib
      { ID := toUint id, Date := date, Hours := hours, EmployeeID := toUint emp,
        PayGroupID := "", PayGroup := { ID := group, Rate := 0 } } tx with
  | error err => simp [hc] at h
  | ok created =>
    obtain ⟨db1, t1⟩ := created
    simp only [hc] at h
    obtain ⟨hkeep, hid, -, -, -, -, hpg⟩ := CreatetTimeSheet_ok lib _ tx db1 t1 hc
    obtain ⟨hts, hpg2⟩ := CreateEmpoyeeReport_ok lib _ db1 tx1 _ h
    refine ⟨?_, ?_, ?_⟩
    · intro x hx
      rw [hts]
      exact hkeep x hx
    · intro hne
      rw [hts]
      exact hid hne
    · rw [hpg2]
      exact hpg

theorem storeRecord_accepts (lib : Lib) (id : Int) (tx : DB) (date : Time) (hours : ℚ)
    (emp : Int) (group : String) (hd : date.Storable) (hg : GroupStorable group) :
    ∃ tx1, storeRecord lib id tx date (.finite hours) emp group = .ok tx1 := by
  obtain ⟨db1, t1, hc⟩ := CreatetTimeSheet_accepts lib
    { ID := toUint id, Date := date, Hours := .finite hours, EmployeeID := toUint emp,
      PayGroupID := "", PayGroup := { ID := group, Rate := 0 } } tx group hours rfl hg rfl
    (Storable_not_zero date hd)
  obtain ⟨-, -, hdate, ⟨h2, hh⟩, -, -, -⟩ := CreatetTimeSheet_ok lib _ tx db1 t1 hc
  have hdate2 : t1.Date = date := hdate (Storable_not_zero date hd)
  obtain ⟨hs, he⟩ := payPeriodOf_not_zero date hd
  unfold storeRecord
  simp only [hc, hh, hdate2, Float32_mul_finite]
  obtain ⟨db2, hok, -⟩ := CreateEmpoyeeReport_accepts lib
    { Amount := .finite ((findPayGroup lib db1 t1.PayGroupID).Rate * h2),
      EmployeeID := t1.EmployeeID, PayPeriodID := zeroTime, PayPeriod := payPeriodOf date }
    db1 _ rfl hs he
  exact ⟨db2, hok⟩

theorem processRecord_ok_inv (lib : Lib) (id : Int) (tx tx1 : DB) (record : List String)
    (h : processRecord lib id tx record = .ok tx1) :
    ∃ date hours emp group, storeRecord lib id tx date hours emp group = .ok tx1 := by
  unfold processRecord at h
  repeat' split at h
  all_goals first
    | (simp only [Except.ok.injEq] at h
       subst h
       exact ⟨_, _, _, _, by assumption⟩)
    | cases h

theorem insertRecords_keeps (lib : Lib) (id : Int) (rows : List (List String)) :
    ∀ tx tx2 : DB, insertRecords lib id tx rows = .ok tx2 →
      ∀ x ∈ tx.time_sheets, x ∈ tx2.time_sheets := by
  induction rows with
  | nil =>
    intro tx tx2 h x hx
    simp only [insertRecords, Except.ok.injEq] at h
    exact h ▸ hx
  | cons r rest ih =>
    intro tx tx2 h x hx
    simp only [insertRecords] at h
    cases hp : processRecord lib id tx r with
    | error out => simp [hp] at h
    | ok tx1 =>
      simp only [hp] at h
      obtain ⟨date, hours, emp, group, hs⟩ := processRecord_ok_inv lib id tx tx1 r hp
      exact ih tx1 tx2 h x ((storeRecord_ok lib id tx tx1 date hours emp group hs).1 x hx)

theorem insertRecords_succeeds (lib : Lib) (id : Int) (rows : List (List String)) :
    ∀ tx : DB, (∀ r ∈ rows, lib.rowValid r) →
      ∃ tx2, insertRecords lib id tx rows = .ok tx2 ∧
        (rows ≠ [] → toUint id ≠ 0 → ∃ x ∈ tx2.time_sheets, x.ID = toUint id) := by
  induction rows with
  | nil => intro tx _; exact ⟨tx, rfl, fun h => absurd rfl h⟩
  | cons r rest ih =>
    intro tx hall
    obtain ⟨row, hread, hd, hg⟩ := hall r (by simp)
    obtain ⟨f0, f1, f2, rfl, h0, h1, h2⟩ := readRow_some lib r row hread
    obtain ⟨tx1, hs⟩ := storeRecord_accepts lib id tx row.date row.hours row.employeeID
      row.group hd hg
    have hp := processRecord_ok lib id tx tx1 f0 f1 f2 row.group row.date _ row.employeeID
      h0 h1 h2 hs
    obtain ⟨tx2, hins, -⟩ := ih tx1 (fun x hx => hall x (List.mem_cons_of_mem _ hx))
    refine ⟨tx2, by simp [insertRecords, hp, hins], fun _ hne => ?_⟩
    obtain ⟨x, hx, hxid⟩ := (storeRecord_ok lib id tx tx1 _ _ _ _ hs).2.1 hne
    exact ⟨x, insertRecords_keeps lib id rest _ tx2 hins x hx, hxid⟩

theorem toUint_of_range (id : Int) (h0 : 0 ≤ id) (h1 : id < 2 ^ 31) :
    ((toUint id : Nat) : Int) = id := by
  unfold toUint
  have : id % 2 ^ 64 = id := Int.emod_eq_of_lt h0 (by omega)
  rw [this]
  exact Int.toNat_of_nonneg h0

theorem toUint_ne_zero (id : Int) (h0 : 0 < id) (h1 : id < 2 ^ 31) : toUint id ≠ 0 := by
  intro hz
  have := toUint_of_range id (by omega) h1
  rw [hz] at this
  simp only [Nat.cast_zero] at this
  omega

theorem timeSheetExists_of_mem (db : DB) (id : Int) (x : TimeSheetRow)
    (hx : x ∈ db.time_sheets) (hid : (x.ID : Int) = id) : timeSheetExists db id = true := by
  unfold timeSheetExists
  simp only [List.any_eq_true, decide_eq_true_eq]
  exact ⟨x, hx, hid⟩


/-! ## Facts about the aggregates -/

theorem storedAmount_congr (db db2 : DB) (h : db2.employee_reports = db.employee_reports)
    (e : Nat) (s : Time) : storedAmount db2 e s = storedAmount db e s := by
  unfold storedAmount
  rw [h]

theorem sum_bump (P : EmployeeReportRow → Prop) [DecidablePred P] (a : ℚ)
    (l : List EmployeeReportRow) (hall : ∀ r ∈ l, P r) :
    ((l.map (fun r => if P r then ({ r with Amount := r.Amount + a } : EmployeeReportRow)
      else r)).map (fun r => r.Amount)).sum =
      (l.map (fun r => r.Amount)).sum + a * l.length := by
  induction l with
  | nil => simp
  | cons x t ih =>
    have hx : P x := hall x (by simp)
    have ht := ih (fun r hr => hall r (List.mem_cons_of_mem _ hr))
    simp only [List.map_cons, List.sum_cons, hx, if_true, List.length_cons, Nat.cast_succ]
    rw [ht]
    ring

theorem filter_bump (P Q : EmployeeReportRow → Prop) [DecidablePred P] [DecidablePred Q]
    (a : ℚ) (hQ : ∀ r : EmployeeReportRow, ∀ x : ℚ, Q { r with Amount := x } ↔ Q r)
    (l : List EmployeeReportRow) :
    (l.map (fun r => if P r then ({ r with Amount := r.Amount + a } : EmployeeReportRow)
      else r)).filter (fun r => Q r) =
    (l.filter (fun r => Q r)).map
      (fun r => if P r then ({ r with Amount := r.Amount + a } : EmployeeReportRow) else r) := by
  induction l with
  | nil => rfl
  | cons x t ih =>
    by_cases hp : P x <;> by_cases hq : Q x <;>
      simp [List.filter_cons, hp, hq, ih, hQ]

theorem filter_key_length (key : Nat × Time) (l : List EmployeeReportRow)
    (hnd : (l.map (fun r => (r.EmployeeID, r.PayPeriodID))).Nodup)
    (hex : ∃ r ∈ l, (r.EmployeeID, r.PayPeriodID) = key) :
    (l.filter (fun r => r.EmployeeID = key.1 ∧ r.PayPeriodID = key.2)).length = 1 := by
  induction l with
  | nil => simp at hex
  | cons x t ih =>
    simp only [List.map_cons, List.nodup_cons, List.mem_map, not_exists, not_and] at hnd
    by_cases hx : (x.EmployeeID, x.PayPeriodID) = key
    · have hx1 : x.EmployeeID = key.1 := by rw [← hx]
      have hx2 : x.PayPeriodID = key.2 := by rw [← hx]
      have hnone : t.filter (fun r => r.EmployeeID = key.1 ∧ r.PayPeriodID = key.2) = [] := by
        rw [List.filter_eq_nil_iff]
        intro r hr hk
        simp only [decide_eq_true_eq] at hk
        refine hnd.1 r hr ?_
        rw [hx]
        exact Prod.ext hk.1 hk.2
      rw [List.filter_cons, hnone]
      simp [hx1, hx2]
    · have hx' : ¬ (x.EmployeeID = key.1 ∧ x.PayPeriodID = key.2) := by
        intro h
        exact hx (Prod.ext h.1 h.2)
      obtain ⟨r, hr, hk⟩ := hex
      rcases List.mem_cons.1 hr with rfl | hr
      · exact absurd hk hx
      · simp only [List.filter_cons, hx', decide_False, Bool.false_eq_true, if_false]
        exact ih hnd.2 ⟨r, hr, hk⟩

theorem CreateEmpoyeeReport_adds (lib : Lib) (e : EmployeeReport) (db : DB) (a : ℚ)
    (he : e.Amount = .finite a)
    (hs : e.PayPeriod.StartDate ≠ zeroTime) (hend : e.PayPeriod.EndDate ≠ zeroTime)
    (huniq : UniqueAggregates db) :
    ∃ db2, e.CreateEmpoyeeReport lib db (.finite a) = .ok db2 ∧
      db2.time_sheets = db.time_sheets ∧ db2.pay_groups = db.pay_groups ∧
      UniqueAggregates db2 ∧
      ∀ k s, storedAmount db2 k s =
        storedAmount db k s + (if k = e.EmployeeID ∧ s = e.PayPeriod.StartDate then a else 0) := by
  obtain ⟨db2, hok, hts, hpg, her⟩ := CreateEmpoyeeReport_accepts lib e db a he hs hend
  refine ⟨db2, hok, hts, hpg, ?_⟩
  unfold UniqueAggregates storedAmount at *
  rw [her]
  by_cases hany : db.employee_reports.any
      (fun r => r.EmployeeID = e.EmployeeID ∧ r.PayPeriodID = e.PayPeriod.StartDate) = true
  · rw [if_pos hany]
    have hkeys : (db.employee_reports.map (fun r =>
        if r.EmployeeID = e.EmployeeID ∧ r.PayPeriodID = e.PayPeriod.StartDate then
          ({ r with Amount := r.Amount + a } : EmployeeReportRow)
        else r)).map (fun r => (r.EmployeeID, r.PayPeriodID)) =
        db.employee_reports.map (fun r => (r.EmployeeID, r.PayPeriodID)) := by
      rw [List.map_map]
      apply List.map_congr_left
      intro r _
      simp only [Function.comp]
      split_ifs <;> rfl
    refine ⟨by rw [hkeys]; exact huniq, ?_⟩
    intro k s
    rw [filter_bump _ (fun r => r.EmployeeID = k ∧ r.PayPeriodID = s) a (fun _ _ => Iff.rfl)]
    by_cases hks : k = e.EmployeeID ∧ s = e.PayPeriod.StartDate
    · obtain ⟨rfl, rfl⟩ := hks
      rw [sum_bump _ a _ (fun r hr => by simpa using (List.mem_filter.1 hr).2)]
      have hlen := filter_key_length (e.EmployeeID, e.PayPeriod.StartDate)
        db.employee_reports huniq (by
          obtain ⟨r, hr, hp⟩ := List.any_eq_true.1 hany
          simp only [decide_eq_true_eq] at hp
          exact ⟨r, hr, Prod.ext hp.1 hp.2⟩)
      simp only [] at hlen
      rw [hlen]
      simp
    · rw [if_neg hks, add_zero]
      congr 2
      conv_rhs => rw [← List.map_id (List.filter _ db.employee_reports)]
      apply List.map_congr_left
      intro r hr
      have hq := (List.mem_filter.1 hr).2
      simp only [decide_eq_true_eq] at hq
      have hnp : ¬ (r.EmployeeID = e.EmployeeID ∧ r.PayPeriodID = e.PayPeriod.StartDate) := by
        intro hp
        exact hks ⟨hq.1 ▸ hp.1, hq.2 ▸ hp.2⟩
      simp [hnp]
  · rw [if_neg hany]
    have hnot : ∀ r ∈ db.employee_reports,
        ¬ (r.EmployeeID = e.EmployeeID ∧ r.PayPeriodID = e.PayPeriod.StartDate) := by
      intro r hr hp
      exact hany (List.any_eq_true.2 ⟨r, hr, by simpa using hp⟩)
    refine ⟨?_, ?_⟩
    · rw [List.map_append, List.nodup_append]
      refine ⟨huniq, by simp, ?_⟩
      intro x hx hx2
      simp only [List.map_cons, List.map_nil, List.mem_singleton] at hx2
      obtain ⟨r, hr, rfl⟩ := List.mem_map.1 hx
      simp only [Prod.mk.injEq] at hx2
      exact hnot r hr hx2
    · intro k s
      rw [List.filter_append, List.map_append, List.sum_append]
      congr 1
      by_cases hks : k = e.EmployeeID ∧ s = e.PayPeriod.StartDate
      · obtain ⟨rfl, rfl⟩ := hks
        simp [List.filter_cons]
      · have hks2 : ¬ (e.EmployeeID = k ∧ e.PayPeriod.StartDate = s) := by
          intro h
          exact hks ⟨h.1.symm, h.2.symm⟩
        simp [List.filter_cons, hks, hks2]

theorem CreateEmpoyeeReport_zero (lib : Lib) (e : EmployeeReport) (db : DB)
    (he : e.Amount = .finite 0)
    (hs : e.PayPeriod.StartDate ≠ zeroTime) (hend : e.PayPeriod.EndDate ≠ zeroTime) :
    ∃ db2, e.CreateEmpoyeeReport lib db (.finite 0) = .ok db2 ∧
      db2.time_sheets = db.time_sheets ∧ db2.pay_groups = db.pay_groups ∧
      ∀ k s, storedAmount db2 k s = storedAmount db k s := by
  obtain ⟨db2, hok, hts, hpg, her⟩ := CreateEmpoyeeReport_accepts lib e db 0 he hs hend
  refine ⟨db2, hok, hts, hpg, ?_⟩
  intro k s
  unfold storedAmount
  rw [her]
  have hmap : ∀ (l : List EmployeeReportRow),
      l.map (fun r => if r.EmployeeID = e.EmployeeID ∧ r.PayPeriodID = e.PayPeriod.StartDate
        then ({ r with Amount := r.Amount + 0 } : EmployeeReportRow) else r) = l := by
    intro l
    induction l with
    | nil => rfl
    | cons x t ih => simp [ih]
  split_ifs
  · rw [hmap]
  · rw [List.filter_append, List.map_append, List.sum_append]
    simp only [List.filter_cons, List.filter_nil]
    split_ifs <;> simp

theorem findPayGroup_rate_zero (lib : Lib) (db : DB) (id : String)
    (h : ∀ g ∈ db.pay_groups, lib.keyEq g.ID id = true → g.Rate = 0) :
    (findPayGroup lib db id).Rate = 0 := by
  unfold findPayGroup
  cases hf : db.pay_groups.find? (fun g => lib.keyEq g.ID id) with
  | none => rfl
  | some g =>
    have hk : lib.keyEq g.ID id = true := by simpa using List.find?_some hf
    exact h g (List.mem_of_find?_eq_some hf) hk

theorem findPayGroup_rate_stable (lib : Lib) (db db2 : DB) (group : String)
    (h : db2.pay_groups = db.pay_groups ∨
      db2.pay_groups = db.pay_groups ++ [{ ID := group, Rate := 0 }]) (g : String) :
    (findPayGroup lib db2 g).Rate = (findPayGroup lib db g).Rate := by
  unfold findPayGroup
  rcases h with h | h
  · rw [h]
  · rw [h, List.find?_append]
    cases hf : db.pay_groups.find? (fun x => lib.keyEq x.ID g) with
    | some x => rfl
    | none =>
      by_cases hg : lib.keyEq group g = true
      · simp [List.find?_cons, hg]
      · simp [List.find?_cons, hg]

theorem storeRecord_adds (lib : Lib) (id : Int) (tx : DB) (date : Time) (hours : ℚ)
    (emp : Int) (group : String) (hd : date.Storable) (hg : GroupStorable group)
    (hid : toUint id ≠ 0) (hemp : toUint emp ≠ 0)
    (hfresh : ∀ r ∈ tx.time_sheets,
      ¬ (r.ID = toUint id ∧ r.Date = date ∧ r.EmployeeID = toUint emp))
    (huniq : UniqueAggregates tx) :
    ∃ tx1, storeRecord lib id tx date (.finite hours) emp group = .ok tx1 ∧
      UniqueAggregates tx1 ∧
      tx1.time_sheets = tx.time_sheets ++
        [{ ID := toUint id, Date := date, EmployeeID := toUint emp, Hours := hours,
           PayGroupID := group }] ∧
      (∀ g, (findPayGroup lib tx1 g).Rate = (findPayGroup lib tx g).Rate) ∧
      ∀ k s, storedAmount tx1 k s =
        storedAmount tx k s +
          (if k = toUint emp ∧ s = (payPeriodOf date).StartDate then
            (findPayGroup lib tx group).Rate * hours else 0) := by
  obtain ⟨db1, hc, hts, -, her, hpg⟩ := CreatetTimeSheet_fresh lib
    { ID := toUint id, Date := date, Hours := .finite hours, EmployeeID := toUint emp,
      PayGroupID := "", PayGroup := { ID := group, Rate := 0 } } tx group hours rfl hg rfl
    (Storable_not_zero date hd) hid hemp hfresh
  have huniq1 : UniqueAggregates db1 := by
    unfold UniqueAggregates
    rw [her]
    exact huniq
  have hrate := findPayGroup_rate_stable lib tx db1 group hpg
  obtain ⟨hs, he⟩ := payPeriodOf_not_zero date hd
  obtain ⟨db2, hok, hts2, hpg2, hu2, hamt⟩ := CreateEmpoyeeReport_adds lib
    { Amount := .finite ((findPayGroup lib tx group).Rate * hours), EmployeeID := toUint emp,
      PayPeriodID := zeroTime, PayPeriod := payPeriodOf date } db1
    ((findPayGroup lib tx group).Rate * hours) rfl hs he huniq1
  refine ⟨db2, ?_, hu2, ?_, ?_, ?_⟩
  · unfold storeRecord
    simp only [hc, hrate, Float32_mul_finite]
    exact hok
  · rw [hts2, hts]
  · intro g
    rw [← hrate g]
    exact findPayGroup_rate_stable lib db1 db2 group (Or.inl hpg2) g
  · intro k s
    rw [hamt k s, storedAmount_congr _ _ her k s]

theorem insertRecords_adds (lib : Lib) (id : Int) (hid : toUint id ≠ 0) (parsed : List Row) :
    ∀ (rows : List (List String)) (tx : DB),
      rows.map lib.readRow = parsed.map some →
      (∀ r ∈ parsed, r.Storable ∧ toUint r.employeeID ≠ 0) →
      (parsed.map (fun r => (r.date, toUint r.employeeID))).Nodup →
      (∀ r ∈ parsed, ∀ x ∈ tx.time_sheets,
        ¬ (x.ID = toUint id ∧ x.Date = r.date ∧ x.EmployeeID = toUint r.employeeID)) →
      UniqueAggregates tx →
      ∃ tx2, insertRecords lib id tx rows = .ok tx2 ∧ UniqueAggregates tx2 ∧
        ∀ k s, storedAmount tx2 k s = storedAmount tx k s +
          ((parsed.filter (fun r =>
              toUint r.employeeID = k ∧ (payPeriodOf r.date).StartDate = s)).map
            (fun r => (findPayGroup lib tx r.group).Rate * r.hours)).sum := by
  induction parsed with
  | nil =>
    intro rows tx hrows _ _ _ huniq
    have : rows = [] := by simpa using hrows
    subst this
    exact ⟨tx, rfl, huniq, by simp⟩
  | cons r ps ih =>
    intro rows tx hrows hst hnd hfresh huniq
    rcases rows with _ | ⟨record, rest⟩
    · simp at hrows
    simp only [List.map_cons, List.cons.injEq] at hrows
    obtain ⟨f0, f1, f2, rfl, h0, h1, h2⟩ := readRow_some lib record r hrows.1
    simp only [List.map_cons, List.nodup_cons, List.mem_map, not_exists, not_and] at hnd
    obtain ⟨⟨hd, hg⟩, hemp⟩ := hst r (by simp)
    obtain ⟨tx1, hs, hu1, hts, hrate, hamt⟩ := storeRecord_adds lib id tx r.date r.hours
      r.employeeID r.group hd hg hid hemp (fun x hx => hfresh r (by simp) x hx) huniq
    have hp := processRecord_ok lib id tx tx1 f0 f1 f2 r.group r.date _ r.employeeID
      h0 h1 h2 hs
    have hfresh1 : ∀ q ∈ ps, ∀ x ∈ tx1.time_sheets,
        ¬ (x.ID = toUint id ∧ x.Date = q.date ∧ x.EmployeeID = toUint q.employeeID) := by
      intro q hq x hx
      rw [hts] at hx
      rcases List.mem_append.1 hx with hx | hx
      · exact hfresh q (List.mem_cons_of_mem _ hq) x hx
      · simp only [List.mem_singleton] at hx
        subst hx
        intro hk
        exact hnd.1 q hq (Prod.ext hk.2.1.symm hk.2.2.symm)
    obtain ⟨tx2, hins, hu2, hsum⟩ := ih rest tx1 hrows.2
      (fun q hq => hst q (List.mem_cons_of_mem _ hq)) hnd.2 hfresh1 hu1
    refine ⟨tx2, by simp [insertRecords, hp, hins], hu2, ?_⟩
    intro k s
    rw [hsum k s, hamt k s]
    simp only [hrate]
    by_cases hks : toUint r.employeeID = k ∧ (payPeriodOf r.date).StartDate = s
    · obtain ⟨rfl, rfl⟩ := hks
      simp only [List.filter_cons, and_self, decide_True, if_true, List.map_cons,
        List.sum_cons]
      ring
    · have hks2 : ¬ (k = toUint r.employeeID ∧ s = (payPeriodOf r.date).StartDate) :=
        fun h => hks ⟨h.1.symm, h.2.symm⟩
      have hdec : decide (toUint r.employeeID = k ∧ (payPeriodOf r.date).StartDate = s) = false :=
        decide_eq_false hks
      rw [List.filter_cons, hdec, if_neg hks2]
      simp

/-! ## Facts about the library instance and the seeded store -/

theorem splitChars_no_sep (sep : Char) (cs : List Char) :
    ∀ p ∈ splitChars sep cs, sep ∉ p := by
  induction cs with
  | nil => intro p hp; simp [splitChars] at hp; simp [hp]
  | cons c cs ih =>
    intro p hp
    unfold splitChars at hp
    by_cases hc : c = sep
    · simp only [hc, if_true, List.mem_cons] at hp
      rcases hp with rfl | hp
      · simp
      · exact ih p hp
    · simp only [hc, if_false] at hp
      cases hs : splitChars sep cs with
      | nil => simp [hs] at hp; simp [hp, Ne.symm hc]
      | cons q qs =>
        rw [hs] at hp ih
        simp only [List.mem_cons] at hp
        rcases hp with rfl | hp
        · have := ih q (by simp)
          simp [Ne.symm hc, this]
        · exact ih p (by simp [hp])

theorem parseSigned_nonneg (cs : List Char) (i : Int) (hdash : '-' ∉ cs)
    (h : parseSigned cs = some i) : 0 ≤ i := by
  unfold parseSigned at h
  split at h
  · simp at hdash
  · rw [Option.map_eq_some'] at h
    obtain ⟨n, -, hn⟩ := h
    rw [← hn]
    exact Int.ofNat_nonneg n
  · rw [Option.map_eq_some'] at h
    obtain ⟨n, -, hn⟩ := h
    rw [← hn]
    exact Int.ofNat_nonneg n

/-- The batch id the handler reads from a filename with the Go parser is
never negative and fits 31 bits: the part comes from a split at dashes, so it
carries no minus sign. -/
theorem goLib_batch_id_range (fn part : String) (id : Int)
    (hpart : (Split fn '-')[2]? = some part) (hid : goLib.ParseInt part = .ok id) :
    0 ≤ id ∧ id < 2 ^ 31 := by
  have hmem : part ∈ Split fn '-' := List.getElem?_mem hpart
  simp only [Split, List.mem_map] at hmem
  obtain ⟨p, hp, rfl⟩ := hmem
  have hdash := splitChars_no_sep '-' fn.toList p hp
  have htl : (String.mk p).toList = p := rfl
  simp only [goLib, goParseSigned, htl] at hid
  cases hs : parseSigned p with
  | none => simp [hs] at hid
  | some i =>
    simp only [hs] at hid
    split_ifs at hid with hr
    · simp only [Except.ok.injEq] at hid
      subst hid
      exact ⟨parseSigned_nonneg p i hdash hs, by simpa using hr.2⟩

/-- The records the CSV reader returns all have the length of the first. -/
theorem goReadAll_lengths (content : String) (header : List String)
    (rows : List (List String)) (h : goLib.ReadAll content = .ok (header :: rows)) :
    ∀ r ∈ rows, r.length = header.length := by
  simp only [goLib, goReadAll] at h
  split at h
  · cases h
  · rename_i first rest heq
    split_ifs at h with hall
    · simp only [Except.ok.injEq] at h
      rw [heq] at h hall
      simp only [List.cons.injEq] at h
      obtain ⟨rfl, rfl⟩ := h
      intro r hr
      have := List.all_eq_true.1 hall r (List.mem_cons_of_mem _ hr)
      simpa using this

theorem seed_SeededRates (lib : Lib) : SeededRates (seed lib emptyDB) := by
  intro g hg
  simp only [seed, emptyDB, PayGroup.CreatePayGroup, List.any_nil, Bool.false_eq_true,
    if_false, List.nil_append] at hg
  split_ifs at hg
  · simp only [List.mem_singleton] at hg
    subst hg
    exact Or.inl rfl
  · simp only [List.cons_append, List.nil_append, List.mem_cons, List.mem_singleton,
      List.not_mem_nil, or_false] at hg
    rcases hg with rfl | rfl
    · exact Or.inl rfl
    · exact Or.inr (Or.inl rfl)

theorem storeRecord_SeededRates (lib : Lib) (id : Int) (tx tx1 : DB) (date : Time)
    (hours : Float32) (emp : Int) (group : String)
    (hs : storeRecord lib id tx date hours emp group = .ok tx1) (h : SeededRates tx) :
    SeededRates tx1 := by
  intro g hg
  rcases (storeRecord_ok lib id tx tx1 date hours emp group hs).2.2 with hpg | hpg
  · rw [hpg] at hg
    exact h g hg
  · rw [hpg] at hg
    rcases List.mem_append.1 hg with hg | hg
    · exact h g hg
    · simp only [List.mem_singleton] at hg
      right; right
      rw [hg]

theorem insertRecords_SeededRates (lib : Lib) (id : Int) (rows : List (List String)) :
    ∀ tx tx2 : DB, SeededRates tx → insertRecords lib id tx rows = .ok tx2 →
      SeededRates tx2 := by
  induction rows with
  | nil =>
    intro tx tx2 hs h
    simp only [insertRecords, Except.ok.injEq] at h
    exact h ▸ hs
  | cons r rest ih =>
    intro tx tx2 hs h
    simp only [insertRecords] at h
    cases hp : processRecord lib id tx r with
    | error out => simp [hp] at h
    | ok tx1 =>
      simp only [hp] at h
      obtain ⟨date, hours, emp, group, hst⟩ := processRecord_ok_inv lib id tx tx1 r hp
      exact ih tx1 tx2 (storeRecord_SeededRates lib id tx tx1 date hours emp group hst hs) h

/-- Uploads keep the rates of the store as seeded: only `A` and `B` ever have
a non-zero rate. -/
theorem insertTimeSheet_SeededRates (lib : Lib) (db : DB) (filename content : String)
    (h : SeededRates db) : SeededRates (insertTimeSheet lib db filename content).1 := by
  unfold insertTimeSheet
  simp only []
  repeat' split
  all_goals first
    | exact h
    | (rename_i heq
       simp only [Transaction] at heq
       split at heq
       · rename_i tx hins
         simp only [Prod.mk.injEq] at heq
         rw [← heq.1]
         exact insertRecords_SeededRates lib _ _ db tx h hins
       · simp only [Prod.mk.injEq] at heq
         rw [← heq.1]
         exact h)


/-! ## Facts about accepted and refused batches -/

theorem insertRecords_first (lib : Lib) (id : Int) (rows : List (List String)) (tx tx2 : DB)
    (h : insertRecords lib id tx rows = .ok tx2) (hne : rows ≠ []) (hid : toUint id ≠ 0) :
    ∃ x ∈ tx2.time_sheets, x.ID = toUint id := by
  rcases rows with _ | ⟨r, rest⟩
  · exact absurd rfl hne
  simp only [insertRecords] at h
  cases hp : processRecord lib id tx r with
  | error out => simp [hp] at h
  | ok tx1 =>
    simp only [hp] at h
    obtain ⟨date, hours, emp, group, hs⟩ := processRecord_ok_inv lib id tx tx1 r hp
    obtain ⟨x, hx, hxid⟩ := (storeRecord_ok lib id tx tx1 date hours emp group hs).2.1 hid
    exact ⟨x, insertRecords_keeps lib id rest tx1 tx2 h x hx, hxid⟩

theorem processRecord_error (lib : Lib) (id : Int) (tx : DB) (record : List String)
    (out : Outcome) (h : processRecord lib id tx record = .error out) :
    ∀ message, out ≠ .success message := by
  intro message hm
  subst hm
  unfold processRecord at h
  repeat' split at h
  all_goals cases h

theorem insertRecords_error (lib : Lib) (id : Int) (rows : List (List String)) :
    ∀ (tx : DB) (out : Outcome), insertRecords lib id tx rows = .error out →
      ∀ message, out ≠ .success message := by
  induction rows with
  | nil => intro tx out h; cases h
  | cons r rest ih =>
    intro tx out h
    simp only [insertRecords] at h
    cases hp : processRecord lib id tx r with
    | error o =>
      simp only [hp, Except.error.injEq] at h
      subst h
      exact processRecord_error lib id tx r o hp
    | ok tx1 =>
      simp only [hp] at h
      exact ih tx1 out h

/-! ## Rejected uploads -/

/-- C4: for every starting store and every upload with the expected header in
which some row fails to parse, the handler answers with a bad request and the
store after the call is the store before it. -/
theorem bad_row_rolls_back (lib : Lib) (db : DB) (filename content part : String)
    (header : List String) (rows : List (List String))
    (hpart : (Split (splitExt filename).1 '-')[2]? = some part)
    (hread : lib.ReadAll content = .ok (header :: rows))
    (hheader : header = expectedHeader)
    (hlen : ∀ r ∈ rows, r.length = header.length)
    (hbad : ∃ r ∈ rows, lib.rowParses r = false) :
    ∃ err, insertTimeSheet lib db filename content = (db, .badRequest err) := by
  have hlen4 : ∀ r ∈ rows, r.length = 4 := by
    intro r hr; rw [hlen r hr, hheader]; rfl
  have hb : badHeader header = false := (badHeader_eq_false_iff header).2 hheader
  unfold insertTimeSheet
  simp only [hpart]
  split_ifs with hext
  · exact ⟨_, rfl⟩
  · cases hid : lib.ParseInt part with
    | error e => exact ⟨_, rfl⟩
    | ok id =>
      simp only []
      split_ifs with hex
      · exact ⟨_, rfl⟩
      · obtain ⟨err, he⟩ := insertRecords_fails lib id rows db hlen4 hbad
        simp only [hread, hb, Transaction, he]
        exact ⟨err, by simp⟩

theorem bad_row_rolls_back_witness :
    goLib.ReadAll
        "date,hours worked,employee id,job group\n1/3/2023,8,100,A\n2/3/2023,four,100,A\n" =
      .ok [expectedHeader, ["1/3/2023", "8", "100", "A"], ["2/3/2023", "four", "100", "A"]] ∧
    goLib.rowParses ["2/3/2023", "four", "100", "A"] = false ∧
    insertTimeSheet goLib (seed goLib emptyDB) "time-report-32.csv"
        "date,hours worked,employee id,job group\n1/3/2023,8,100,A\n2/3/2023,four,100,A\n" =
      (seed goLib emptyDB, .badRequest (numError "ParseFloat" "four" "invalid syntax")) ∧
    ∃ err, insertTimeSheet goLib (seed goLib emptyDB) "time-report-32.csv"
        "date,hours worked,employee id,job group\n1/3/2023,8,100,A\n2/3/2023,four,100,A\n" =
      (seed goLib emptyDB, .badRequest err) :=
  ⟨rfl, by decide, rfl,
    bad_row_rolls_back goLib (seed goLib emptyDB) "time-report-32.csv"
      "date,hours worked,employee id,job group\n1/3/2023,8,100,A\n2/3/2023,four,100,A\n" "32"
      expectedHeader [["1/3/2023", "8", "100", "A"], ["2/3/2023", "four", "100", "A"]]
      (by decide) rfl rfl (by decide)
      ⟨["2/3/2023", "four", "100", "A"], by simp, by decide⟩⟩

/-- C6 (as the code has it): an upload whose extension is not `.csv` is refused
with "Expected a CSV (.csv) file", and an upload with extension `.csv` whose
name has a third dash-separated part that is not a 32-bit base-10 integer is
refused with the filename message; in both cases whatever the content is, and
the store is unchanged. -/
theorem bad_filename_rejected (lib : Lib) (db : DB) (filename content : String)
    (h : (splitExt filename).2 ≠ ".csv" ∨
      ∃ part err, (Split (splitExt filename).1 '-')[2]? = some part ∧
        lib.ParseInt part = .error err) :
    insertTimeSheet lib db filename content =
      (db, .badRequest
        (if (splitExt filename).2 ≠ ".csv" then "Expected a CSV (.csv) file"
         else
          "The provided filename is incorrectly formated. Expected time-report-\x7bid\x7d.csv")) := by
  unfold insertTimeSheet
  by_cases hext : (splitExt filename).2 ≠ ".csv"
  · simp [hext]
  · rcases h with h | ⟨part, err, hpart, herr⟩
    · exact absurd h hext
    · simp [hext, hpart, herr]

theorem bad_filename_rejected_witness :
    (splitExt "time-report-fortytwo.csv").2 = ".csv" ∧
    (Split (splitExt "time-report-fortytwo.csv").1 '-')[2]? = some "fortytwo" ∧
    insertTimeSheet goLib (seed goLib emptyDB) "time-report-fortytwo.csv" "" =
      (seed goLib emptyDB, .badRequest
        (if (splitExt "time-report-fortytwo.csv").2 ≠ ".csv" then "Expected a CSV (.csv) file"
         else
          "The provided filename is incorrectly formated. Expected time-report-\x7bid\x7d.csv")) :=
  ⟨by decide, by decide,
    bad_filename_rejected goLib (seed goLib emptyDB) "time-report-fortytwo.csv" ""
      (Or.inr ⟨"fortytwo", _, by decide, rfl⟩)⟩

set_option maxRecDepth 100000 in
/-- C6 as stated fails: `foo-bar-42-x.csv` is not of the form
`time-report-<integer>.csv`, yet it is accepted as batch 42 and its row is
stored; and `report.csv`, with fewer than three parts, gets no bad request:
the handler stops on the out-of-range index. -/
theorem other_filenames_not_rejected :
    (insertTimeSheet goLib (seed goLib emptyDB) "foo-bar-42-x.csv"
      "date,hours worked,employee id,job group\n1/3/2023,8,100,A\n").2 =
      .success "Success! Added time report with ID: 42" ∧
    (insertTimeSheet goLib (seed goLib emptyDB) "foo-bar-42-x.csv"
      "date,hours worked,employee id,job group\n1/3/2023,8,100,A\n").1.time_sheets =
      [{ ID := 42, Date := ⟨2023, 3, 1, 0⟩, EmployeeID := 100, Hours := 8, PayGroupID := "A" }] ∧
    insertTimeSheet goLib (seed goLib emptyDB) "report.csv"
      "date,hours worked,employee id,job group\n1/3/2023,8,100,A\n" =
      (seed goLib emptyDB, .crash none) :=
  ⟨rfl, rfl, rfl⟩

/-- C7 (as the code has it): when the name and duplicate checks pass and the
CSV reader returns the records of the upload, a header row other than `date`,
`hours worked`, `employee id`, `job group` is refused with the header message,
whatever the data rows are and however their fields would parse, and the
store is unchanged. -/
theorem bad_header_rejected (lib : Lib) (db : DB) (filename content part : String) (id : Int)
    (header : List String) (rows : List (List String))
    (hext : (splitExt filename).2 = ".csv")
    (hpart : (Split (splitExt filename).1 '-')[2]? = some part)
    (hid : lib.ParseInt part = .ok id)
    (hnew : timeSheetExists db id = false)
    (hread : lib.ReadAll content = .ok (header :: rows))
    (hheader : header ≠ expectedHeader) :
    insertTimeSheet lib db filename content =
      (db, .badRequest
        "Incorrect number of column headers found. Expected: date,hours worked,employee id,job group") := by
  unfold insertTimeSheet
  simp [hext, hpart, hid, hnew, hread, badHeader_of_ne header hheader]

theorem bad_header_rejected_witness :
    goLib.ReadAll "date,hours,employee id,job group\n1/3/2023,8,100,A\noops,x,y,z\n" =
      .ok [["date", "hours", "employee id", "job group"], ["1/3/2023", "8", "100", "A"],
        ["oops", "x", "y", "z"]] ∧
    insertTimeSheet goLib (seed goLib emptyDB) "time-report-404.csv"
      "date,hours,employee id,job group\n1/3/2023,8,100,A\noops,x,y,z\n" =
      (seed goLib emptyDB, .badRequest
        "Incorrect number of column headers found. Expected: date,hours worked,employee id,job group") :=
  ⟨rfl,
    bad_header_rejected goLib (seed goLib emptyDB) "time-report-404.csv"
      "date,hours,employee id,job group\n1/3/2023,8,100,A\noops,x,y,z\n" "404" 404
      ["date", "hours", "employee id", "job group"]
      [["1/3/2023", "8", "100", "A"], ["oops", "x", "y", "z"]]
      (by decide) (by decide) rfl rfl rfl (by decide)⟩

/-- C7 as stated fails: with a three-column header above four-column rows the
reader refuses the file, the handler writes "Unable to read csv" and then
stops on the empty record list; the header message is never sent. -/
theorem short_header_not_header_error :
    goLib.ReadAll "date,hours worked,employee id\n1/3/2023,8,100,A\n" =
      .error "wrong number of fields" ∧
    insertTimeSheet goLib (seed goLib emptyDB) "time-report-404.csv"
      "date,hours worked,employee id\n1/3/2023,8,100,A\n" =
      (seed goLib emptyDB, .crash (some "Unable to read csv")) :=
  ⟨rfl, rfl⟩

/-! ## Repeated uploads -/

/-- C3 (as the code has it): for a batch id from 1 up and an upload with at
least one data row, whenever the handler accepts the upload, the same upload
repeated on the resulting store is refused with
"A record with ID: <id> already exists" and leaves the store, raw records and
aggregates alike, as the first call left it. -/
theorem duplicate_upload_rejected (lib : Lib) (db : DB) (filename content part : String)
    (id : Int) (header : List String) (rows : List (List String))
    (hpart : (Split (splitExt filename).1 '-')[2]? = some part)
    (hid : lib.ParseInt part = .ok id) (hid0 : 0 < id) (hid1 : id < 2 ^ 31)
    (hread : lib.ReadAll content = .ok (header :: rows)) (hne : rows ≠ [])
    (hfirst : (insertTimeSheet lib db filename content).2 =
      .success ("Success! Added time report with ID: " ++ fmtInt id)) :
    insertTimeSheet lib (insertTimeSheet lib db filename content).1 filename content =
      ((insertTimeSheet lib db filename content).1,
        .badRequest ("A record with ID: " ++ fmtInt id ++ " already exists")) := by
  have hext : (splitExt filename).2 = ".csv" := by
    by_contra hext
    unfold insertTimeSheet at hfirst
    simp [hext] at hfirst
  cases hins : insertRecords lib id db rows with
  | error out =>
    exfalso
    have hno := insertRecords_error lib id rows db out hins
    unfold insertTimeSheet at hfirst
    simp only [hext, hpart, hid, hread, Transaction, hins] at hfirst
    split_ifs at hfirst
    exact hno _ hfirst
  | ok tx2 =>
    obtain ⟨x, hx, hxid⟩ := insertRecords_first lib id rows db tx2 hins hne
      (toUint_ne_zero id hid0 hid1)
    have hexists : timeSheetExists tx2 id = true :=
      timeSheetExists_of_mem tx2 id x hx (by rw [hxid, toUint_of_range id (by omega) hid1])
    have hstore : (insertTimeSheet lib db filename content).1 = tx2 := by
      unfold insertTimeSheet at hfirst ⊢
      simp only [hext, hpart, hid, hread, Transaction, hins] at hfirst ⊢
      split_ifs at hfirst ⊢
      rfl
    rw [hstore]
    unfold insertTimeSheet
    simp [hext, hpart, hid, hexists]

set_option maxRecDepth 100000 in
theorem duplicate_upload_rejected_witness :
    (insertTimeSheet goLib (seed goLib emptyDB) "time-report-42.csv"
        "date,hours worked,employee id,job group\n1/3/2023,8,100,A\n").2 =
      .success ("Success! Added time report with ID: " ++ fmtInt 42) ∧
    insertTimeSheet goLib
        (insertTimeSheet goLib (seed goLib emptyDB) "time-report-42.csv"
          "date,hours worked,employee id,job group\n1/3/2023,8,100,A\n").1
        "time-report-42.csv" "date,hours worked,employee id,job group\n1/3/2023,8,100,A\n" =
      ((insertTimeSheet goLib (seed goLib emptyDB) "time-report-42.csv"
          "date,hours worked,employee id,job group\n1/3/2023,8,100,A\n").1,
        .badRequest ("A record with ID: " ++ fmtInt 42 ++ " already exists")) :=
  ⟨rfl,
    duplicate_upload_rejected goLib (seed goLib emptyDB) "time-report-42.csv"
      "date,hours worked,employee id,job group\n1/3/2023,8,100,A\n" "42" 42
      expectedHeader [["1/3/2023", "8", "100", "A"]]
      (by decide) rfl (by decide) (by decide) rfl (by decide) rfl⟩

/-- C3 as stated fails for an upload without data rows: the first call
succeeds and stores no time sheet, so the second call finds no record of
batch 42 and succeeds again instead of being refused. -/
theorem empty_batch_accepted_twice :
    insertTimeSheet goLib (seed goLib emptyDB) "time-report-42.csv"
        "date,hours worked,employee id,job group\n" =
      (seed goLib emptyDB, .success "Success! Added time report with ID: 42") ∧
    insertTimeSheet goLib
        (insertTimeSheet goLib (seed goLib emptyDB) "time-report-42.csv"
          "date,hours worked,employee id,job group\n").1
        "time-report-42.csv" "date,hours worked,employee id,job group\n" =
      (seed goLib emptyDB, .success "Success! Added time report with ID: 42") :=
  ⟨rfl, rfl⟩

set_option maxRecDepth 100000 in
/-- Batch 0 is not recognised when repeated either: first-or-create leaves the
zero `ID` out of its lookup, so the repeated upload finds the stored row, is
accepted again and adds the amount of that row once more. -/
theorem batch_zero_accepted_twice :
    (insertTimeSheet goLib (seed goLib emptyDB) "time-report-0.csv"
        "date,hours worked,employee id,job group\n1/3/2023,8,100,A\n").2 =
      .success "Success! Added time report with ID: 0" ∧
    (insertTimeSheet goLib
        (insertTimeSheet goLib (seed goLib emptyDB) "time-report-0.csv"
          "date,hours worked,employee id,job group\n1/3/2023,8,100,A\n").1
        "time-report-0.csv" "date,hours worked,employee id,job group\n1/3/2023,8,100,A\n").2 =
      .success "Success! Added time report with ID: 0" ∧
    (insertTimeSheet goLib
        (insertTimeSheet goLib (seed goLib emptyDB) "time-report-0.csv"
          "date,hours worked,employee id,job group\n1/3/2023,8,100,A\n").1
        "time-report-0.csv"
        "date,hours worked,employee id,job group\n1/3/2023,8,100,A\n").1.employee_reports =
      [{ EmployeeID := 100, PayPeriodID := ⟨2023, 3, 1, 0⟩, Amount := 320 }] := by
  refine ⟨rfl, rfl, ?_⟩
  with_unfolding_all rfl

/-- An upload is accepted when its name carries a batch id that is not stored,
its header is the expected one and every data row is valid: four fields that
parse, finite hours, a storable date and a storable job group.  (Amounts are
exact here; an amount too large for a `float32` is outside the model.) -/
theorem valid_upload_accepted (lib : Lib) (db : DB) (filename content part : String)
    (id : Int) (header : List String) (rows : List (List String))
    (hext : (splitExt filename).2 = ".csv")
    (hpart : (Split (splitExt filename).1 '-')[2]? = some part)
    (hid : lib.ParseInt part = .ok id)
    (hnew : timeSheetExists db id = false)
    (hread : lib.ReadAll content = .ok (header :: rows))
    (hheader : header = expectedHeader)
    (hrows : ∀ r ∈ rows, lib.rowValid r) :
    (insertTimeSheet lib db filename content).2 =
      .success ("Success! Added time report with ID: " ++ fmtInt id) := by
  have hb : badHeader header = false := (badHeader_eq_false_iff header).2 hheader
  obtain ⟨tx2, hins, -⟩ := insertRecords_succeeds lib id rows db hrows
  unfold insertTimeSheet
  simp [hext, hpart, hid, hnew, hread, hb, Transaction, hins]

set_option maxRecDepth 100000 in
theorem valid_upload_accepted_witness :
    (insertTimeSheet goLib (seed goLib emptyDB) "time-report-7.csv"
      "date,hours worked,employee id,job group\n14/11/2023,7.5,3,B\n").2 =
      .success ("Success! Added time report with ID: " ++ fmtInt 7) :=
  valid_upload_accepted goLib (seed goLib emptyDB) "time-report-7.csv"
    "date,hours worked,employee id,job group\n14/11/2023,7.5,3,B\n" "7" 7
    expectedHeader [["14/11/2023", "7.5", "3", "B"]]
    (by decide) (by decide) rfl rfl rfl rfl
    (by
      intro r hr
      simp only [List.mem_singleton] at hr
      subst hr
      exact ⟨⟨⟨2023, 11, 14, 0⟩, 15 / 2, 3, "B"⟩, by with_unfolding_all rfl, by decide⟩)

set_option maxRecDepth 100000 in
/-- A row with an empty job group is refused by the store: no pay group is
saved for it, the time sheet fails on the foreign key and the whole upload is
answered with that error and rolled back. -/
theorem empty_job_group_refused :
    insertTimeSheet goLib (seed goLib emptyDB) "time-report-42.csv"
      "date,hours worked,employee id,job group\n1/3/2023,8,100,A\n2/3/2023,8,100,\n" =
      (seed goLib emptyDB, .badRequest (goLib.StoreError .foreignKey)) := by
  with_unfolding_all rfl

/-! ## End to end -/

set_option maxRecDepth 100000 in
/-- C8: on the store seeded with rates A = 20 and B = 30, the upload
`time-report-42.csv` with the expected header and the row `1/3/2023,8,100,A`
succeeds with a message naming batch 42, the date is read as 1 March 2023, and
the report is exactly one entry: employee 100, period 2023-03-01 to
2023-03-15, amount "$160.00". -/
theorem end_to_end_single_row :
    (seed goLib emptyDB).pay_groups = [{ ID := "A", Rate := 20 }, { ID := "B", Rate := 30 }] ∧
    goLib.ParseTime "1/3/2023" = .ok ⟨2023, 3, 1, 0⟩ ∧
    (insertTimeSheet goLib (seed goLib emptyDB) "time-report-42.csv"
      "date,hours worked,employee id,job group\n1/3/2023,8,100,A\n").2 =
      .success "Success! Added time report with ID: 42" ∧
    (getPayrollReport (insertTimeSheet goLib (seed goLib emptyDB) "time-report-42.csv"
      "date,hours worked,employee id,job group\n1/3/2023,8,100,A\n").1).employeeReports =
      [{ employeeID := 100,
         payPeriod := { startDate := "2023-03-01", endDate := "2023-03-15" },
         amountPaid := "$160.00" }] := by
  refine ⟨rfl, rfl, rfl, ?_⟩
  with_unfolding_all rfl

/-! ## Unknown pay groups -/

/-- C9 (as the code has it): on a store whose only pay groups with a non-zero
rate are `A` and `B`, take a row whose fields parse, with finite hours, a date
the store holds, a non-empty job group of at most 191 characters that the
store's collation tells apart from `A` and from `B`, non-zero batch and
employee ids, and a key (batch, date, employee) that is not stored yet.  The
row is processed without failure: the rate found is zero, the amount is `0`,
the raw record is appended with that job group, and no stored aggregate
amount changes. -/
theorem unknown_group_contributes_zero (lib : Lib) (id : Int) (tx : DB)
    (f0 f1 f2 f3 : String) (date : Time) (hours : ℚ) (emp : Int)
    (h0 : lib.ParseTime f0 = .ok date) (h1 : lib.ParseFloat f1 = .ok (.finite hours))
    (h2 : lib.Atoi f2 = .ok emp)
    (hdate : date.Storable) (hgroup : GroupStorable f3)
    (hA : lib.keyEq "A" f3 = false) (hB : lib.keyEq "B" f3 = false)
    (hid : toUint id ≠ 0) (hemp : toUint emp ≠ 0)
    (hseed : ∀ g ∈ tx.pay_groups, g.ID = "A" ∨ g.ID = "B" ∨ g.Rate = 0)
    (hfresh : ∀ r ∈ tx.time_sheets,
      ¬ (r.ID = toUint id ∧ r.Date = date ∧ r.EmployeeID = toUint emp)) :
    ∃ tx1, processRecord lib id tx [f0, f1, f2, f3] = .ok tx1 ∧
      (findPayGroup lib tx1 f3).Rate = 0 ∧
      Float32.mul (.finite (findPayGroup lib tx1 f3).Rate) (.finite hours) = .finite 0 ∧
      tx1.time_sheets = tx.time_sheets ++
        [{ ID := toUint id, Date := date, EmployeeID := toUint emp, Hours := hours,
           PayGroupID := f3 }] ∧
      ∀ e s, storedAmount tx1 e s = storedAmount tx e s := by
  obtain ⟨db1, hc, hts, -, her, hpg⟩ := CreatetTimeSheet_fresh lib
    { ID := toUint id, Date := date, Hours := .finite hours, EmployeeID := toUint emp,
      PayGroupID := "", PayGroup := { ID := f3, Rate := 0 } } tx f3 hours rfl hgroup rfl
    (Storable_not_zero date hdate) hid hemp hfresh
  have hzero : ∀ db : DB, (db.pay_groups = tx.pay_groups ∨
      db.pay_groups = tx.pay_groups ++ [{ ID := f3, Rate := 0 }]) →
      (findPayGroup lib db f3).Rate = 0 := by
    intro db hdb
    apply findPayGroup_rate_zero
    intro g hg hk
    have hold : g ∈ tx.pay_groups → g.Rate = 0 := by
      intro hg
      rcases hseed g hg with h | h | h
      · rw [h, hA] at hk; cases hk
      · rw [h, hB] at hk; cases hk
      · exact h
    rcases hdb with hdb | hdb <;> rw [hdb] at hg
    · exact hold hg
    · rcases List.mem_append.1 hg with hg | hg
      · exact hold hg
      · simp only [List.mem_singleton] at hg
        rw [hg]
  obtain ⟨hs, he⟩ := payPeriodOf_not_zero date hdate
  obtain ⟨db2, hok, hts2, hpg2, hamt⟩ := CreateEmpoyeeReport_zero lib
    { Amount := .finite 0, EmployeeID := toUint emp, PayPeriodID := zeroTime,
      PayPeriod := payPeriodOf date } db1 rfl hs he
  have hstore : storeRecord lib id tx date (.finite hours) emp f3 = .ok db2 := by
    unfold storeRecord
    simp only [hc, hzero db1 hpg, Float32_mul_finite, zero_mul]
    exact hok
  have hfinal : (findPayGroup lib db2 f3).Rate = 0 := hzero db2 (by rw [hpg2]; exact hpg)
  refine ⟨db2, processRecord_ok lib id tx db2 f0 f1 f2 f3 date _ emp h0 h1 h2 hstore,
    hfinal, by rw [hfinal, Float32_mul_finite, zero_mul], by rw [hts2, hts], ?_⟩
  intro e s
  rw [hamt e s, storedAmount_congr _ _ her e s]

set_option maxRecDepth 100000 in
theorem unknown_group_contributes_zero_witness :
    goLib.ParseTime "1/3/2023" = .ok ⟨2023, 3, 1, 0⟩ ∧
    goLib.ParseFloat "8" = .ok (.finite 8) ∧ goLib.Atoi "100" = .ok 100 ∧
    goLib.keyEq "A" "C" = false ∧ goLib.keyEq "B" "C" = false ∧
    ∃ tx1, processRecord goLib 42 (seed goLib emptyDB) ["1/3/2023", "8", "100", "C"] = .ok tx1 ∧
      (findPayGroup goLib tx1 "C").Rate = 0 ∧
      Float32.mul (.finite (findPayGroup goLib tx1 "C").Rate) (.finite 8) = .finite 0 ∧
      tx1.time_sheets = (seed goLib emptyDB).time_sheets ++
        [{ ID := toUint 42, Date := ⟨2023, 3, 1, 0⟩, EmployeeID := toUint 100, Hours := 8,
           PayGroupID := "C" }] ∧
      ∀ e s, storedAmount tx1 e s = storedAmount (seed goLib emptyDB) e s :=
  ⟨rfl, by with_unfolding_all rfl, rfl, by decide, by decide,
    unknown_group_contributes_zero goLib 42 (seed goLib emptyDB) "1/3/2023" "8" "100" "C"
      ⟨2023, 3, 1, 0⟩ 8 100 rfl (by with_unfolding_all rfl) rfl (by decide) (by decide)
      (by decide) (by decide) (by decide) (by decide)
      (seed_SeededRates goLib)
      (fun r hr => absurd hr (List.not_mem_nil r))⟩

set_option maxRecDepth 100000 in
/-- C9 as stated fails for a row that repeats the date and employee of an
earlier row of the batch: after `1/3/2023,8,100,A`, the row `1/3/2023,2,100,C`
writes no raw record, is rated with the stored row (group `A`, 8 hours) and
adds 160 to the aggregate instead of 0. -/
theorem unknown_group_on_repeated_key :
    processRecord goLib 42 (seed goLib emptyDB) ["1/3/2023", "8", "100", "A"] =
      .ok { time_sheets := [{ ID := 42, Date := ⟨2023, 3, 1, 0⟩, EmployeeID := 100,
                              Hours := 8, PayGroupID := "A" }]
            pay_groups := [{ ID := "A", Rate := 20 }, { ID := "B", Rate := 30 }]
            pay_periods := [{ StartDate := ⟨2023, 3, 1, 0⟩, EndDate := ⟨2023, 3, 15, 0⟩ }]
            employee_reports :=
              [{ EmployeeID := 100, PayPeriodID := ⟨2023, 3, 1, 0⟩, Amount := 160 }] } ∧
    processRecord goLib 42
        { time_sheets := [{ ID := 42, Date := ⟨2023, 3, 1, 0⟩, EmployeeID := 100,
                            Hours := 8, PayGroupID := "A" }]
          pay_groups := [{ ID := "A", Rate := 20 }, { ID := "B", Rate := 30 }]
          pay_periods := [{ StartDate := ⟨2023, 3, 1, 0⟩, EndDate := ⟨2023, 3, 15, 0⟩ }]
          employee_reports :=
            [{ EmployeeID := 100, PayPeriodID := ⟨2023, 3, 1, 0⟩, Amount := 160 }] }
        ["1/3/2023", "2", "100", "C"] =
      .ok { time_sheets := [{ ID := 42, Date := ⟨2023, 3, 1, 0⟩, EmployeeID := 100,
                              Hours := 8, PayGroupID := "A" }]
            pay_groups := [{ ID := "A", Rate := 20 }, { ID := "B", Rate := 30 }]
            pay_periods := [{ StartDate := ⟨2023, 3, 1, 0⟩, EndDate := ⟨2023, 3, 15, 0⟩ }]
            employee_reports :=
              [{ EmployeeID := 100, PayPeriodID := ⟨2023, 3, 1, 0⟩, Amount := 320 }] } := by
  refine ⟨?_, ?_⟩
  · with_unfolding_all rfl
  · with_unfolding_all rfl

set_option maxRecDepth 100000 in
/-- The provisos of the zero contribution are needed.  With employee id 0
first-or-create leaves the employee out of its lookup: after
`1/3/2023,8,100,A` the row `1/3/2023,2,0,C` finds the row of employee 100 and
adds 160 to that employee.  A job group `a` is found as group `A` by a
collation that ignores case and is paid at rate 20.  For hours `Inf` the
product with the rate zero is `NaN`, not zero, and the store refuses the row. -/
theorem unknown_group_provisos :
    (insertTimeSheet goLib (seed goLib emptyDB) "time-report-42.csv"
      "date,hours worked,employee id,job group\n1/3/2023,8,100,A\n1/3/2023,2,0,C\n").1.employee_reports =
      [{ EmployeeID := 100, PayPeriodID := ⟨2023, 3, 1, 0⟩, Amount := 320 }] ∧
    (insertTimeSheet goLib (seed goLib emptyDB) "time-report-42.csv"
      "date,hours worked,employee id,job group\n1/3/2023,8,100,a\n").1.employee_reports =
      [{ EmployeeID := 100, PayPeriodID := ⟨2023, 3, 1, 0⟩, Amount := 160 }] ∧
    Float32.mul (.finite 0) .posInf = .nan ∧
    insertTimeSheet goLib (seed goLib emptyDB) "time-report-42.csv"
      "date,hours worked,employee id,job group\n1/3/2023,Inf,100,C\n" =
      (seed goLib emptyDB, .badRequest (goLib.StoreError .outOfRange)) := by
  refine ⟨?_, ?_, ?_, ?_⟩ <;> with_unfolding_all rfl

/-! ## Aggregation -/

/-- Additive aggregation for batches without repeated rows, in exact
arithmetic: when the batch id is 1 or more and not stored, every row is valid
with a non-zero employee id, and no two rows share date and employee, the
upload is accepted, each key has at most one aggregate afterwards, and for
every employee and pay-period start the stored amount is the amount before
the upload plus the sum of rate times hours over the rows of the batch that
fall on that key. -/
theorem upload_adds_amounts (lib : Lib) (db : DB) (filename content part : String)
    (id : Int) (header : List String) (rows : List (List String)) (parsed : List Row)
    (hext : (splitExt filename).2 = ".csv")
    (hpart : (Split (splitExt filename).1 '-')[2]? = some part)
    (hid : lib.ParseInt part = .ok id) (hid0 : 0 < id) (hid1 : id < 2 ^ 31)
    (hnew : timeSheetExists db id = false)
    (hread : lib.ReadAll content = .ok (header :: rows))
    (hheader : header = expectedHeader)
    (hrows : rows.map lib.readRow = parsed.map some)
    (hvalid : ∀ r ∈ parsed, r.Storable ∧ toUint r.employeeID ≠ 0)
    (hdistinct : (parsed.map (fun r => (r.date, toUint r.employeeID))).Nodup)
    (huniq : UniqueAggregates db) :
    (insertTimeSheet lib db filename content).2 =
      .success ("Success! Added time report with ID: " ++ fmtInt id) ∧
    UniqueAggregates (insertTimeSheet lib db filename content).1 ∧
    ∀ k s, storedAmount (insertTimeSheet lib db filename content).1 k s =
      storedAmount db k s +
        ((parsed.filter (fun r =>
            toUint r.employeeID = k ∧ (payPeriodOf r.date).StartDate = s)).map
          (fun r => (findPayGroup lib db r.group).Rate * r.hours)).sum := by
  have hb : badHeader header = false := (badHeader_eq_false_iff header).2 hheader
  have hfresh : ∀ r ∈ parsed, ∀ x ∈ db.time_sheets,
      ¬ (x.ID = toUint id ∧ x.Date = r.date ∧ x.EmployeeID = toUint r.employeeID) := by
    intro r _ x hx hk
    have hex := timeSheetExists_of_mem db id x hx
      (by rw [hk.1, toUint_of_range id (by omega) hid1])
    rw [hnew] at hex
    cases hex
  obtain ⟨tx2, hins, hu2, hsum⟩ :=
    insertRecords_adds lib id (toUint_ne_zero id hid0 hid1) parsed rows db hrows hvalid
      hdistinct hfresh huniq
  have hfirst : insertTimeSheet lib db filename content =
      (tx2, .success ("Success! Added time report with ID: " ++ fmtInt id)) := by
    unfold insertTimeSheet
    simp [hext, hpart, hid, hnew, hread, hb, Transaction, hins]
  rw [hfirst]
  exact ⟨rfl, hu2, hsum⟩

set_option maxRecDepth 100000 in
theorem upload_adds_amounts_witness :
    (insertTimeSheet goLib (seed goLib emptyDB) "time-report-42.csv"
      "date,hours worked,employee id,job group\n1/3/2023,8,100,A\n2/3/2023,2,100,A\n").2 =
      .success ("Success! Added time report with ID: " ++ fmtInt 42) ∧
    UniqueAggregates (insertTimeSheet goLib (seed goLib emptyDB) "time-report-42.csv"
      "date,hours worked,employee id,job group\n1/3/2023,8,100,A\n2/3/2023,2,100,A\n").1 ∧
    storedAmount (insertTimeSheet goLib (seed goLib emptyDB) "time-report-42.csv"
      "date,hours worked,employee id,job group\n1/3/2023,8,100,A\n2/3/2023,2,100,A\n").1
      100 ⟨2023, 3, 1, 0⟩ = 200 := by
  obtain ⟨h1, h2, h3⟩ := upload_adds_amounts goLib (seed goLib emptyDB) "time-report-42.csv"
    "date,hours worked,employee id,job group\n1/3/2023,8,100,A\n2/3/2023,2,100,A\n" "42" 42
    expectedHeader [["1/3/2023", "8", "100", "A"], ["2/3/2023", "2", "100", "A"]]
    [⟨⟨2023, 3, 1, 0⟩, 8, 100, "A"⟩, ⟨⟨2023, 3, 2, 0⟩, 2, 100, "A"⟩]
    (by decide) (by decide) rfl (by decide) (by decide) rfl rfl rfl
    (by with_unfolding_all rfl)
    (by
      intro r hr
      simp only [List.mem_cons, List.mem_singleton, List.not_mem_nil, or_false] at hr
      rcases hr with rfl | rfl <;> exact ⟨by decide, by decide⟩)
    (by decide)
    (by
      have h : (seed goLib emptyDB).employee_reports = [] := rfl
      simp [UniqueAggregates, h])
  refine ⟨h1, h2, ?_⟩
  rw [h3]
  with_unfolding_all rfl

set_option maxRecDepth 100000 in
/-- C5 at a failing input: for the batch `1/3/2023,8,100,A` and
`1/3/2023,2,100,A` the upload succeeds and one aggregate is stored for
employee 100 and the period starting 2023-03-01, but its amount is 320, while
the sum of rate times hours over the two rows is 20*8 + 20*2 = 200. -/
theorem repeated_row_amount :
    (insertTimeSheet goLib (seed goLib emptyDB) "time-report-42.csv"
      "date,hours worked,employee id,job group\n1/3/2023,8,100,A\n1/3/2023,2,100,A\n").2 =
      .success "Success! Added time report with ID: 42" ∧
    (insertTimeSheet goLib (seed goLib emptyDB) "time-report-42.csv"
      "date,hours worked,employee id,job group\n1/3/2023,8,100,A\n1/3/2023,2,100,A\n").1.employee_reports =
      [{ EmployeeID := 100, PayPeriodID := ⟨2023, 3, 1, 0⟩, Amount := 320 }] ∧
    storedAmount (seed goLib emptyDB) 100 ⟨2023, 3, 1, 0⟩ + ((20 : ℚ) * 8 + 20 * 2) = 200 := by
  refine ⟨rfl, ?_, ?_⟩
  · with_unfolding_all rfl
  · with_unfolding_all rfl

end Payroll
